import Mathlib

/-!
# gorequester: the deferred-error request builder

A shallow embedding of `requester.go` (package `gorequester`).

* The `*Requester` receiver that every method mutates and returns is passed
  explicitly: a method is a function from the state before the call to the
  state after it.
* A method that dereferences a nil pointer or writes to a nil map stops with
  a run-time panic; such a call yields `none`.
* Everything the package calls but does not define (`net/url`, `net/http`,
  `encoding/json`, `fmt`, `goplus/net/url`, and the form encoder
  `buildFormData` of this package, whose file is not part of the sources at
  hand) is collected in the record `Env`.
* `wrapper.go` offers the same constructors as methods of a `Client` type
  that is not among the sources at hand; the constructors embedded here are
  those of `requester.go`.
-/

namespace Gorequester

/-! ## Data model -/

/-- A Go byte slice; a nil slice and an empty slice are both the empty list
(the package only ever takes their length). -/
abbrev Bytes := List UInt8

/-- The UTF-8 bytes of a string, the Go conversion from string to byte slice. -/
def stringBytes (s : String) : Bytes :=
  s.data.flatMap String.utf8EncodeChar

/-- A Go error value, identified by its message. -/
structure GoError where
  msg : String
deriving DecidableEq, Repr

/-- The dynamic values (Go empty interface) handed to the builder: strings and
byte slices, which the package inspects itself, and a few other shapes that
it passes on to an encoder. -/
inductive Value where
  | str (s : String)
  | bytes (b : Bytes)
  | int (n : Int)
  | strMap (m : List (String × String))
  | chan
deriving DecidableEq, Repr

/-- A Go map from string to string slices (`url.Values`, `http.Header`), as
an association list. -/
abbrev StrMap := List (String × List String)

/-- Map read `m[key]` with the comma-ok form: `none` when the key is absent. -/
def mapLookup : StrMap → String → Option (List String)
  | [], _ => none
  | (k, v) :: rest, key => if k = key then some v else mapLookup rest key

/-- Map write `m[key] = v`: replaces the entry of an existing key, adds one
otherwise. -/
def mapAssign : StrMap → String → List String → StrMap
  | [], key, v => [(key, v)]
  | (k, w) :: rest, key, v =>
    if k = key then (k, v) :: rest else (k, w) :: mapAssign rest key v

/-- The fields of `url.URL`: the query component, which the package edits, and
the remaining components, which it never looks at. -/
structure URL where
  Rest : String
  RawQuery : String
  Fragment : String
deriving DecidableEq, Repr

/-- Modelled from the spec: the file attachment entity, whose declaration is
not among the sources at hand (field name, file name, content). -/
structure FormFile where
  FieldName : String
  FileName : String
  Content : Bytes
deriving DecidableEq, Repr

/-- The transport request built by `http.NewRequest`: method, the URL string it
was built from, headers, and the bytes its body reader yields. -/
structure Request where
  Method : String
  URL : String
  Header : StrMap
  Body : Bytes
deriving DecidableEq, Repr

/-- The transport response: status code and text, the bytes draining the body
yields, and the error that draining ends with, if any. -/
structure Response where
  StatusCode : Int
  Status : String
  Body : Bytes
  BodyErr : Option GoError
deriving DecidableEq, Repr

/-- The fields of `http.Client` that tell clients apart: the timeout in
nanoseconds and the number of its round tripper. -/
structure Client where
  Timeout : Nat
  Transport : Nat
deriving DecidableEq, Repr

/-- The collaborators of the package. -/
structure Env where
  /-- The function `url.Parse`. -/
  parse : String → Except GoError URL
  /-- The method `String` of a URL. -/
  urlString : URL → String
  /-- The query encoder `urlplus.ToRawQuery`. -/
  toRawQuery : Value → Except GoError String
  /-- The form-value encoder `urlplus.ToValues`; a successful call yields a
  map that is not nil. -/
  toValues : Value → Except GoError StrMap
  /-- The function `json.Marshal`. -/
  jsonMarshal : Value → Except GoError Bytes
  /-- The error result of `json.Unmarshal` on the given bytes. -/
  jsonUnmarshal : Bytes → Option GoError
  /-- The default textual form, `fmt.Sprintf` with the verb `%v`. -/
  sprint : Value → String
  /-- The form encoder `buildFormData` of this package (file not at hand):
  content type and body for the given fields (`none` is the nil map) and
  files. -/
  buildFormData : Option StrMap → List FormFile → Except GoError (String × Bytes)
  /-- The error `http.NewRequest` reports for a method and URL string, if
  any. -/
  newRequestErr : String → String → Option GoError
  /-- The function `textproto.CanonicalMIMEHeaderKey`. -/
  canonicalKey : String → String
  /-- The method `Do` of the transport client, for a client and a request
  pointer: response and error.  The package reaches it with a client that is
  not nil only (see `Do`). -/
  clientDo : Option Client → Option Request → Option Response × Option GoError

/-- Requester http.Request -/
structure Requester where
  Error : Option GoError
  client : Option Client
  url : Option URL
  request : Option Request
  method : String
  contentType : String
  rawData : Bytes
  formFields : Option StrMap
  formFiles : List FormFile
deriving DecidableEq, Repr

/-- What a call that executes the request leaves behind: the builder after the
call, the value and error it returns, the transport invocations it made and
the responses whose body it closed, both in order. -/
structure Outcome (α : Type) where
  req : Requester
  value : α
  err : Option GoError
  calls : List (Option Client × Option Request)
  closed : List Response
deriving DecidableEq

/-- The part of an `Outcome` a caller can observe without looking into the
builder: value, error, transport invocations, and the built request. -/
structure Seen (α : Type) where
  value : α
  err : Option GoError
  calls : List (Option Client × Option Request)
  request : Option Request
deriving DecidableEq

/-! ## Constructors -/

/-- The client of `defaultClient`: a timeout of five seconds, default
transport. -/
def defaultClient : Client :=
  { Timeout := 5 * 1000000000, Transport := 0 }

/-- The Requester `&Requester{Error: err}`: every other field has its zero
value. -/
def errRequester (err : GoError) : Requester :=
  { Error := some err, client := none, url := none, request := none,
    method := "", contentType := "", rawData := [], formFields := none,
    formFiles := [] }

/-- NewWithClient 创建一个基础 Requester -/
def NewWithClient (E : Env) (method toURL : String) (client : Option Client) : Requester :=
  match E.parse toURL with
  | .error err => errRequester err
  | .ok u =>
    { Error := none, client := client, url := some u, request := none,
      method := method, contentType := "", rawData := [],
      formFields := some [], formFiles := [] }

/-- New 创建一个基础 Requester -/
def New (E : Env) (method toURL : String) : Requester :=
  match E.parse toURL with
  | .error err => errRequester err
  | .ok u =>
    { Error := none, client := some defaultClient, url := some u, request := none,
      method := method, contentType := "", rawData := [],
      formFields := some [], formFiles := [] }

/-! ## Value encoders -/

/-- The loop of `stringRawQuery`: `splits` holds the fragments gathered so
far. -/
def stringRawQueryLoop (E : Env) : List Value → List String → Except GoError String
  | [], splits => .ok (String.intercalate "&" splits)
  | .str s :: rest, splits => stringRawQueryLoop E rest (splits ++ [s])
  | vv :: rest, splits =>
    match E.toRawQuery vv with
    | .error err => .error err
    | .ok s => stringRawQueryLoop E rest (splits ++ [s])

/-- v type in ( string, struct, map[string]string, map[string][]string,
map[string]int, map[string][]int ) -/
def stringRawQuery (E : Env) (v : List Value) : Except GoError String :=
  stringRawQueryLoop E v []

/-- v type in ( string, []byte, struct, any json ) -/
def byteRawData (E : Env) (v : Value) : Except GoError Bytes :=
  match v with
  | .str s => .ok (stringBytes s)
  | .bytes b => .ok b
  | v =>
    match E.jsonMarshal v with
    | .error err => .error err
    | .ok d => .ok d

/-! ## Configuration operations -/

/-- AddRawQuery 追加 RawQuery -/
def AddRawQuery (E : Env) (v : List Value) (req : Requester) : Option Requester :=
  match req.Error with
  | some _ => some req
  | none =>
    match stringRawQuery E v with
    | .error err => some { req with Error := some err }
    | .ok s =>
      match req.url with
      | none => none
      | some u =>
        if u.RawQuery = "" then
          some { req with url := some { u with RawQuery := s } }
        else
          some { req with url := some { u with RawQuery := u.RawQuery ++ ("&" ++ s) } }

/-- SetRawQuery 重设 RawQuery -/
def SetRawQuery (E : Env) (v : List Value) (req : Requester) : Option Requester :=
  match req.Error with
  | some _ => some req
  | none =>
    match stringRawQuery E v with
    | .error err => some { req with Error := some err }
    | .ok s =>
      match req.url with
      | none => none
      | some u => some { req with url := some { u with RawQuery := s } }

/-- SetRawData 设置 RawData -/
def SetRawData (E : Env) (v : Value) (req : Requester) : Option Requester :=
  match req.Error with
  | some _ => some req
  | none =>
    match byteRawData E v with
    | .error err => some { req with Error := some err }
    | .ok d => some { req with rawData := d }

/-- SetFormFields 设置 formField -/
def SetFormFields (E : Env) (v : Value) (req : Requester) : Option Requester :=
  match req.Error with
  | some _ => some req
  | none =>
    match E.toValues v with
    | .error err => some { req with Error := some err }
    | .ok m => some { req with formFields := some m }

/-- AddFormField 追加 formField.  When the key is present the extended slice
is stored in the local variable `v` only, never back into the map. -/
def AddFormField (E : Env) (key : String) (val : Value) (req : Requester) : Option Requester :=
  match req.Error with
  | some _ => some req
  | none =>
    match req.formFields with
    | none => none
    | some m =>
      match mapLookup m key with
      | none => some { req with formFields := some (mapAssign m key [E.sprint val]) }
      | some v =>
        let _v := v ++ [E.sprint val]
        some req

/-- SetFormField 设置 formField -/
def SetFormField (E : Env) (key : String) (val : Value) (req : Requester) : Option Requester :=
  match req.Error with
  | some _ => some req
  | none =>
    match req.formFields with
    | none => none
    | some m => some { req with formFields := some (mapAssign m key [E.sprint val]) }

/-- AddFormFile 追加 formFile -/
def AddFormFile (files : List FormFile) (req : Requester) : Option Requester :=
  match req.Error with
  | some _ => some req
  | none => some { req with formFiles := req.formFiles ++ files }

/-! ## Materialization -/

/-- The error of a body on a method other than POST. -/
def errUsePost : GoError :=
  ⟨"have rawData, formField, formFile, use POST"⟩

/-- The error of a raw body together with form state. -/
def errRawForm : GoError :=
  ⟨"raw, form only choose one"⟩

/-- The length `len(m)` of a map that may be nil. -/
def lenFields : Option StrMap → Nat
  | none => 0
  | some m => m.length

/-- The method `Set` of `http.Header`. -/
def headerSet (E : Env) (h : StrMap) (key val : String) : StrMap :=
  mapAssign h (E.canonicalKey key) [val]

/-- The method `Add` of `http.Header`. -/
def headerAdd (E : Env) (h : StrMap) (key val : String) : StrMap :=
  mapAssign h (E.canonicalKey key) ((mapLookup h (E.canonicalKey key)).getD [] ++ [val])

/-- The method `Get` of `http.Header`: the first value of the key, or the
empty string. -/
def headerGet (E : Env) (h : StrMap) (key : String) : String :=
  match mapLookup h (E.canonicalKey key) with
  | some (v :: _) => v
  | _ => ""

/-- The constructor `http.NewRequest`: an error, or a request with the given
method (GET for the empty method), URL and body and no headers. -/
def httpNewRequest (E : Env) (method url : String) (body : Bytes) : Except GoError Request :=
  match E.newRequestErr method url with
  | some err => .error err
  | none =>
    .ok { Method := if method = "" then "GET" else method, URL := url,
          Header := [], Body := body }

/-- The end of `httpRequest`, from the call of `http.NewRequest` on. -/
def buildRequest (E : Env) (req : Requester) (body : Bytes) : Option Requester :=
  match req.url with
  | none => none
  | some u =>
    match httpNewRequest E req.method (E.urlString u) body with
    | .error err => some { req with Error := some err }
    | .ok httpReq =>
      if req.contentType ≠ "" then
        let h := headerSet E httpReq.Header "Content-Type" req.contentType
        some { req with request := some { httpReq with Header := h } }
      else
        some { req with request := some httpReq }

/-- The method `httpRequest`: builds the transport request unless an error is
set or the request exists already. -/
def httpRequest (E : Env) (req : Requester) : Option Requester :=
  match req.Error with
  | some _ => some req
  | none =>
    match req.request with
    | some _ => some req
    | none =>
      if req.method ≠ "POST" ∧
          (req.rawData.length ≠ 0 ∨ lenFields req.formFields ≠ 0 ∨ req.formFiles.length ≠ 0) then
        some { req with Error := some errUsePost }
      else if req.rawData.length ≠ 0 ∧
          (lenFields req.formFields ≠ 0 ∨ req.formFiles.length ≠ 0) then
        some { req with Error := some errRawForm }
      else if req.rawData.length ≠ 0 then
        buildRequest E req req.rawData
      else
        match E.buildFormData req.formFields req.formFiles with
        | .error err => some { req with Error := some err }
        | .ok (contentType, body) => buildRequest E { req with contentType := contentType } body

/-- SetHeader 设置请求头 -/
def SetHeader (E : Env) (key val : String) (req : Requester) : Option Requester :=
  match httpRequest E req with
  | none => none
  | some req =>
    match req.Error with
    | some _ => some req
    | none =>
      match req.request with
      | none => none
      | some q => some { req with request := some { q with Header := headerSet E q.Header key val } }

/-- AddHeader 添加请求头 -/
def AddHeader (E : Env) (key val : String) (req : Requester) : Option Requester :=
  match httpRequest E req with
  | none => none
  | some req =>
    match req.Error with
    | some _ => some req
    | none =>
      match req.request with
      | none => none
      | some q => some { req with request := some { q with Header := headerAdd E q.Header key val } }

/-! ## Execution and reading -/

/-- Do 获取响应.  The call `req.client.Do(req.request)` on a nil client is a
nil pointer dereference, a panic. -/
def Do (E : Env) (req : Requester) : Option (Outcome (Option Response)) :=
  match httpRequest E req with
  | none => none
  | some req =>
    match req.Error with
    | some err => some { req := req, value := none, err := some err, calls := [], closed := [] }
    | none =>
      match req.client with
      | none => none
      | some _ =>
        some { req := req, value := (E.clientDo req.client req.request).1,
               err := (E.clientDo req.client req.request).2,
               calls := [(req.client, req.request)], closed := [] }

/-- ReadData 获取响应二进制响应 -/
def ReadData (E : Env) (req : Requester) : Option (Outcome Bytes) :=
  match Do E req with
  | none => none
  | some d =>
    match d.err with
    | some err => some { req := d.req, value := [], err := some err, calls := d.calls, closed := [] }
    | none =>
      match d.value with
      | none => none
      | some resp =>
        if resp.StatusCode ≠ 200 then
          some { req := d.req, value := [], err := some ⟨resp.Status⟩, calls := d.calls,
                 closed := [resp] }
        else
          some { req := d.req, value := resp.Body, err := resp.BodyErr, calls := d.calls,
                 closed := [resp] }

/-- ReadString 获取响应字符串响应; the Go string returned is given by its bytes. -/
def ReadString (E : Env) (req : Requester) : Option (Outcome Bytes) :=
  match ReadData E req with
  | none => none
  | some d =>
    match d.err with
    | some err => some { d with value := [], err := some err }
    | none => some { d with value := d.value, err := none }

/-- ReadJSON 获取响应JSON响应 -/
def ReadJSON (E : Env) (req : Requester) : Option (Outcome Unit) :=
  match ReadData E req with
  | none => none
  | some d =>
    match d.err with
    | some err => some { req := d.req, value := (), err := some err, calls := d.calls, closed := d.closed }
    | none =>
      some { req := d.req, value := (), err := E.jsonUnmarshal d.value, calls := d.calls,
             closed := d.closed }

/-! ## Convenience constructors -/

/-- Get 创建一个 GET Requester -/
def Get (E : Env) (toURL : String) (v : List Value) : Option Requester :=
  AddRawQuery E v (New E "GET" toURL)

/-- Post 创建一个 POST Requester -/
def Post (E : Env) (toURL : String) : Requester :=
  New E "POST" toURL

/-- PostData PostData -/
def PostData (E : Env) (toURL contentType : String) (v : Value) : Option Requester :=
  match SetRawData E v (New E "POST" toURL) with
  | none => none
  | some req => some { req with contentType := contentType }

/-- PostJSON PostJSON -/
def PostJSON (E : Env) (toURL : String) (v : Value) : Option Requester :=
  match SetRawData E v (New E "POST" toURL) with
  | none => none
  | some req => some { req with contentType := "application/json" }

/-- PostForm PostForm -/
def PostForm (E : Env) (toURL : String) (v : Value) : Option Requester :=
  SetFormFields E v (New E "POST" toURL)

/-! ## Chains of configuration calls -/

/-- One configuration call of a caller's chain, with its arguments. -/
inductive ConfigOp where
  | addRawQuery (v : List Value)
  | setRawQuery (v : List Value)
  | setRawData (v : Value)
  | setFormFields (v : Value)
  | addFormField (key : String) (val : Value)
  | setFormField (key : String) (val : Value)
  | addFormFile (files : List FormFile)
  | setHeader (key val : String)
  | addHeader (key val : String)
deriving DecidableEq, Repr

/-- The call that a `ConfigOp` stands for. -/
def applyOp (E : Env) : ConfigOp → Requester → Option Requester
  | .addRawQuery v => AddRawQuery E v
  | .setRawQuery v => SetRawQuery E v
  | .setRawData v => SetRawData E v
  | .setFormFields v => SetFormFields E v
  | .addFormField key val => AddFormField E key val
  | .setFormField key val => SetFormField E key val
  | .addFormFile files => AddFormFile files
  | .setHeader key val => SetHeader E key val
  | .addHeader key val => AddHeader E key val

/-- Whether the call is one of the two header calls, which materialize the
request; the other seven only edit the fields of the builder. -/
def ConfigOp.isHeader : ConfigOp → Bool
  | .setHeader _ _ => true
  | .addHeader _ _ => true
  | _ => false

/-- A chain of configuration calls, first call first; a panic ends it. -/
def applyOps (E : Env) : List ConfigOp → Requester → Option Requester
  | [], req => some req
  | op :: ops, req =>
    match applyOp E op req with
    | none => none
    | some req => applyOps E ops req

/-! ## A concrete environment

Small stand-ins for the collaborators, on which the definitions above can be
run.  They agree with the Go libraries on the inputs used in this file: URLs
of the form `scheme://host/path?query#fragment`, header names written in
canonical form, and values whose text needs no escaping. -/

/-- Splits a text at the first occurrence of `c`, which is dropped. -/
def cutAt (c : Char) (cs : List Char) : List Char × List Char :=
  (cs.takeWhile (fun x => x ≠ c), (cs.dropWhile (fun x => x ≠ c)).drop 1)

/-- A stand-in for `url.Parse`: a text starting with a colon has no scheme
and is rejected; the fragment follows the first `#`, the query the first `?`
before it. -/
def sampleParse (s : String) : Except GoError URL :=
  if s.data.head? = some ':' then
    .error ⟨"missing protocol scheme"⟩
  else
    .ok { Rest := String.mk (cutAt '?' (cutAt '#' s.data).1).1,
          RawQuery := String.mk (cutAt '?' (cutAt '#' s.data).1).2,
          Fragment := String.mk (cutAt '#' s.data).2 }

/-- A stand-in for the method `String` of a URL. -/
def sampleURLString (u : URL) : String :=
  u.Rest ++ (if u.RawQuery = "" then "" else "?" ++ u.RawQuery)
    ++ (if u.Fragment = "" then "" else "#" ++ u.Fragment)

/-- A stand-in for `urlplus.ToRawQuery`: a string map becomes its `k=v` pairs;
no other shape is taken. -/
def sampleToRawQuery : Value → Except GoError String
  | .strMap m => .ok (String.intercalate "&" (m.map (fun kv => kv.1 ++ "=" ++ kv.2)))
  | _ => .error ⟨"unsupported type"⟩

/-- A stand-in for `urlplus.ToValues`: a string map becomes a map of
one-element lists; no other shape is taken. -/
def sampleToValues : Value → Except GoError StrMap
  | .strMap m => .ok (m.map (fun kv => (kv.1, [kv.2])))
  | _ => .error ⟨"unsupported type"⟩

/-- A stand-in for `json.Marshal`: integers and strings are serialised, a
channel is rejected as Go does. -/
def sampleJSONMarshal : Value → Except GoError Bytes
  | .int n => .ok (stringBytes (toString n))
  | .str s => .ok (stringBytes ("\"" ++ s ++ "\""))
  | .chan => .error ⟨"json: unsupported type: chan int"⟩
  | _ => .error ⟨"unsupported type"⟩

/-- A stand-in for `fmt.Sprintf` with `%v`: a string is itself, an integer its
decimal form. -/
def sampleSprint : Value → String
  | .str s => s
  | .int n => toString n
  | _ => "?"

/-- Modelled from the spec: the form encoder `buildFormData`, whose file is not
among the sources at hand.  Without files the body is URL-encoded
(`application/x-www-form-urlencoded`); with files it is multipart
(`multipart/form-data; boundary=...`), one part for each field value and one
for each file.  The boundary is fixed here and nothing is escaped. -/
def sampleBuildFormData (fields : Option StrMap) (files : List FormFile) :
    Except GoError (String × Bytes) :=
  let pairs : List (String × String) :=
    (fields.getD []).flatMap (fun kv => kv.2.map (fun v => (kv.1, v)))
  match files with
  | [] =>
    .ok ("application/x-www-form-urlencoded",
         stringBytes (String.intercalate "&" (pairs.map (fun kv => kv.1 ++ "=" ++ kv.2))))
  | _ =>
    .ok ("multipart/form-data; boundary=sampleboundary",
         pairs.flatMap (fun kv => stringBytes ("--sampleboundary " ++ kv.1 ++ " " ++ kv.2 ++ " "))
           ++ files.flatMap (fun f =>
                stringBytes ("--sampleboundary " ++ f.FieldName ++ " " ++ f.FileName ++ " ")
                  ++ f.Content)
           ++ stringBytes "--sampleboundary--")

/-- A stand-in for the checks of `http.NewRequest`: a method with a blank in
it is rejected. -/
def sampleNewRequestErr (method _url : String) : Option GoError :=
  if ' ' ∈ method.data then some ⟨"net/http: invalid method"⟩ else none

/-- A stand-in for the transport: an echo server that answers every request
with status 200 and the request body, and reports a nil request. -/
def sampleClientDo (_client : Option Client) (q : Option Request) :
    Option Response × Option GoError :=
  match q with
  | none => (none, some ⟨"http: nil Request"⟩)
  | some q => (some { StatusCode := 200, Status := "200 OK", Body := q.Body, BodyErr := none }, none)

/-- The concrete environment made of the stand-ins above. -/
def sampleEnv : Env :=
  { parse := sampleParse, urlString := sampleURLString, toRawQuery := sampleToRawQuery,
    toValues := sampleToValues, jsonMarshal := sampleJSONMarshal,
    jsonUnmarshal := fun _ => none, sprint := sampleSprint,
    buildFormData := sampleBuildFormData, newRequestErr := sampleNewRequestErr,
    canonicalKey := fun k => k, clientDo := sampleClientDo }

/-- The Requester that `SetHeader "X-A" "1"` makes of a fresh GET Requester for
"http://x/test" in the concrete environment. -/
def sampleBuilt : Requester :=
  { Error := none, client := some defaultClient, url := some ⟨"http://x/test", "", ""⟩,
    request := some ⟨"GET", "http://x/test",
      [("Content-Type", ["application/x-www-form-urlencoded"]), ("X-A", ["1"])], []⟩,
    method := "GET", contentType := "application/x-www-form-urlencoded", rawData := [],
    formFields := some [], formFiles := [] }

/-- What a caller sees of an execution: the value and error returned, the
transport invocations, and the request held by the builder afterwards. -/
def Outcome.seen {α : Type} (o : Outcome α) : Seen α :=
  { value := o.value, err := o.err, calls := o.calls, request := o.req.request }

/-- The concrete environment with a transport that answers every request
with the response `resp` and no error. -/
def replyEnv (resp : Response) : Env :=
  { sampleEnv with clientDo := fun _ _ => (some resp, none) }

/-- The fragment that one input value of `stringRawQuery` stands for, in the
words of its contract: a string is used verbatim, any other value is encoded
with the query encoder. -/
def queryFragment (E : Env) : Value → Except GoError String
  | .str s => .ok s
  | v => E.toRawQuery v

/-! ## Absorbing errors (C1) -/

theorem httpRequest_of_error (E : Env) (r : Requester) (e : GoError)
    (h : r.Error = some e) : httpRequest E r = some r := by
  simp [httpRequest, h]

/-- C1: on a Requester whose Error is set, each of AddRawQuery, SetRawQuery,
SetRawData, SetFormFields, AddFormField, SetFormField, AddFormFile, SetHeader
and AddHeader, with any arguments, returns the same Requester with every
field unchanged. -/
theorem config_noop_of_error (E : Env) (r : Requester) (e : GoError)
    (h : r.Error = some e) (vs : List Value) (v : Value) (key val : String)
    (fval : Value) (files : List FormFile) :
    AddRawQuery E vs r = some r ∧ SetRawQuery E vs r = some r ∧
    SetRawData E v r = some r ∧ SetFormFields E v r = some r ∧
    AddFormField E key fval r = some r ∧ SetFormField E key fval r = some r ∧
    AddFormFile files r = some r ∧ SetHeader E key val r = some r ∧
    AddHeader E key val r = some r := by
  simp [AddRawQuery, SetRawQuery, SetRawData, SetFormFields, AddFormField, SetFormField,
    AddFormFile, SetHeader, AddHeader, httpRequest, h]

/-- C1 at a concrete input: the Requester of an unparsable URL. -/
theorem config_noop_of_error_witness :
    (New sampleEnv "GET" ":bad").Error = some ⟨"missing protocol scheme"⟩ ∧
    AddHeader sampleEnv "X-A" "1" (New sampleEnv "GET" ":bad")
      = some (New sampleEnv "GET" ":bad") :=
  ⟨by decide,
   (config_noop_of_error sampleEnv (New sampleEnv "GET" ":bad") ⟨"missing protocol scheme"⟩
      (by decide) [] (.str "") "X-A" "1" (.str "") []).2.2.2.2.2.2.2.2⟩

/-! ## Configuration errors at materialization (C2, C3) -/

theorem mapAssign_ne_nil (m : StrMap) (key : String) (v : List String) :
    mapAssign m key v ≠ [] := by
  cases m with
  | nil => simp [mapAssign]
  | cons kv rest =>
    obtain ⟨k, w⟩ := kv
    by_cases hk : k = key <;> simp [mapAssign, hk]

theorem ne_nil_of_mapLookup (m : StrMap) (key : String) (v : List String)
    (h : mapLookup m key = some v) : m ≠ [] := by
  cases m with
  | nil => simp [mapLookup] at h
  | cons kv rest => simp

theorem httpRequest_usePost (E : Env) (r : Requester) (hE : r.Error = none)
    (hq : r.request = none) (hm : r.method ≠ "POST")
    (hb : r.rawData ≠ [] ∨ lenFields r.formFields ≠ 0 ∨ r.formFiles ≠ []) :
    httpRequest E r = some { r with Error := some errUsePost } := by
  have hb2 : r.rawData.length ≠ 0 ∨ lenFields r.formFields ≠ 0 ∨ r.formFiles.length ≠ 0 := by
    simpa [List.length_eq_zero] using hb
  simp only [httpRequest, hE, hq]
  rw [if_pos ⟨hm, hb2⟩]

theorem httpRequest_rawForm (E : Env) (r : Requester) (hE : r.Error = none)
    (hq : r.request = none) (hm : r.method = "POST") (hd : r.rawData ≠ [])
    (hb : lenFields r.formFields ≠ 0 ∨ r.formFiles ≠ []) :
    httpRequest E r = some { r with Error := some errRawForm } := by
  have hd2 : r.rawData.length ≠ 0 := by simpa [List.length_eq_zero] using hd
  have hb2 : lenFields r.formFields ≠ 0 ∨ r.formFiles.length ≠ 0 := by
    simpa [List.length_eq_zero] using hb
  simp only [httpRequest, hE, hq]
  rw [if_neg (fun h => h.1 hm), if_pos ⟨hd2, hb2⟩]

theorem Do_of_httpRequest_error (E : Env) (r r1 : Requester) (e : GoError)
    (h : httpRequest E r = some r1) (he : r1.Error = some e) :
    Do E r = some { req := r1, value := none, err := some e, calls := [], closed := [] } := by
  simp [Do, h, he]

theorem Do_usePost (E : Env) (r : Requester) (hE : r.Error = none)
    (hq : r.request = none) (hm : r.method ≠ "POST")
    (hb : r.rawData ≠ [] ∨ lenFields r.formFields ≠ 0 ∨ r.formFiles ≠ []) :
    (Do E r).map Outcome.seen = some ⟨none, some errUsePost, [], none⟩ := by
  rw [Do_of_httpRequest_error E r _ errUsePost (httpRequest_usePost E r hE hq hm hb) rfl]
  simp [Outcome.seen, hq]

theorem Do_rawForm (E : Env) (r : Requester) (hE : r.Error = none)
    (hq : r.request = none) (hm : r.method = "POST") (hd : r.rawData ≠ [])
    (hb : lenFields r.formFields ≠ 0 ∨ r.formFiles ≠ []) :
    (Do E r).map Outcome.seen = some ⟨none, some errRawForm, [], none⟩ := by
  rw [Do_of_httpRequest_error E r _ errRawForm (httpRequest_rawForm E r hE hq hm hd hb) rfl]
  simp [Outcome.seen, hq]

theorem AddFormField_some (E : Env) (r : Requester) (m : StrMap) (key : String) (val : Value)
    (hE : r.Error = none) (hf : r.formFields = some m) :
    ∃ m1 : StrMap, m1 ≠ [] ∧ AddFormField E key val r = some { r with formFields := some m1 } := by
  cases hl : mapLookup m key with
  | none =>
    exact ⟨mapAssign m key [E.sprint val], mapAssign_ne_nil _ _ _, by
      simp [AddFormField, hE, hf, hl]⟩
  | some w =>
    refine ⟨m, ne_nil_of_mapLookup m key w hl, ?_⟩
    cases r
    simp only at hE hf
    subst hE hf
    simp [AddFormField, hl]

theorem SetFormField_some (E : Env) (r : Requester) (m : StrMap) (key : String) (val : Value)
    (hE : r.Error = none) (hf : r.formFields = some m) :
    ∃ m1 : StrMap, m1 ≠ [] ∧ SetFormField E key val r = some { r with formFields := some m1 } :=
  ⟨mapAssign m key [E.sprint val], mapAssign_ne_nil _ _ _, by simp [SetFormField, hE, hf]⟩

theorem SetRawData_ok (E : Env) (r : Requester) (v : Value) (d : Bytes)
    (hE : r.Error = none) (hv : byteRawData E v = .ok d) :
    SetRawData E v r = some { r with rawData := d } := by
  simp [SetRawData, hE, hv]

theorem SetFormFields_ok (E : Env) (r : Requester) (v : Value) (m : StrMap)
    (hE : r.Error = none) (hv : E.toValues v = .ok m) :
    SetFormFields E v r = some { r with formFields := some m } := by
  simp [SetFormFields, hE, hv]

theorem lenFields_some_ne_zero (m : StrMap) (h : m ≠ []) : lenFields (some m) ≠ 0 := by
  simpa [lenFields, List.length_eq_zero] using h

/-- C2, amended: on a POST Requester with no error, no built request and a
form-field map that is not nil, when SetRawData sets a raw body of at least one
byte and a form field is set by AddFormField, by SetFormField or by a
SetFormFields whose encoder yields a map that is not empty, in either order of
the two calls, Do returns no response and the error "raw, form only choose
one", builds no request and never invokes the transport. -/
theorem raw_and_form_rejected (E : Env) (r : Requester) (m : StrMap)
    (hE : r.Error = none) (hq : r.request = none) (hm : r.method = "POST")
    (hf : r.formFields = some m)
    (v : Value) (d : Bytes) (hv : byteRawData E v = .ok d) (hd : d ≠ [])
    (key : String) (val : Value)
    (fv : Value) (fm : StrMap) (hfv : E.toValues fv = .ok fm) (hfm : fm ≠ []) :
    (((SetRawData E v r).bind (AddFormField E key val)).bind (Do E)).map Outcome.seen
        = some ⟨none, some errRawForm, [], none⟩ ∧
    (((AddFormField E key val r).bind (SetRawData E v)).bind (Do E)).map Outcome.seen
        = some ⟨none, some errRawForm, [], none⟩ ∧
    (((SetRawData E v r).bind (SetFormField E key val)).bind (Do E)).map Outcome.seen
        = some ⟨none, some errRawForm, [], none⟩ ∧
    (((SetFormField E key val r).bind (SetRawData E v)).bind (Do E)).map Outcome.seen
        = some ⟨none, some errRawForm, [], none⟩ ∧
    (((SetRawData E v r).bind (SetFormFields E fv)).bind (Do E)).map Outcome.seen
        = some ⟨none, some errRawForm, [], none⟩ ∧
    (((SetFormFields E fv r).bind (SetRawData E v)).bind (Do E)).map Outcome.seen
        = some ⟨none, some errRawForm, [], none⟩ := by
  refine ⟨?_, ?_, ?_, ?_, ?_, ?_⟩
  · obtain ⟨m1, hm1, h1⟩ := AddFormField_some E { r with rawData := d } m key val hE hf
    rw [SetRawData_ok E r v d hE hv, Option.some_bind, h1, Option.some_bind]
    exact Do_rawForm E _ hE hq hm hd (Or.inl (lenFields_some_ne_zero m1 hm1))
  · obtain ⟨m1, hm1, h1⟩ := AddFormField_some E r m key val hE hf
    rw [h1, Option.some_bind, SetRawData_ok E { r with formFields := some m1 } v d hE hv,
      Option.some_bind]
    exact Do_rawForm E _ hE hq hm hd (Or.inl (lenFields_some_ne_zero m1 hm1))
  · obtain ⟨m1, hm1, h1⟩ := SetFormField_some E { r with rawData := d } m key val hE hf
    rw [SetRawData_ok E r v d hE hv, Option.some_bind, h1, Option.some_bind]
    exact Do_rawForm E _ hE hq hm hd (Or.inl (lenFields_some_ne_zero m1 hm1))
  · obtain ⟨m1, hm1, h1⟩ := SetFormField_some E r m key val hE hf
    rw [h1, Option.some_bind, SetRawData_ok E { r with formFields := some m1 } v d hE hv,
      Option.some_bind]
    exact Do_rawForm E _ hE hq hm hd (Or.inl (lenFields_some_ne_zero m1 hm1))
  · rw [SetRawData_ok E r v d hE hv, Option.some_bind,
      SetFormFields_ok E { r with rawData := d } fv fm hE hfv, Option.some_bind]
    exact Do_rawForm E _ hE hq hm hd (Or.inl (lenFields_some_ne_zero fm hfm))
  · rw [SetFormFields_ok E r fv fm hE hfv, Option.some_bind,
      SetRawData_ok E { r with formFields := some fm } v d hE hv, Option.some_bind]
    exact Do_rawForm E _ hE hq hm hd (Or.inl (lenFields_some_ne_zero fm hfm))

/-- C2 at a concrete input: a POST Requester, a one-byte raw body, then a form
field. -/
theorem raw_and_form_rejected_witness :
    (((SetRawData sampleEnv (.str "x") (Post sampleEnv "http://x/test")).bind
        (AddFormField sampleEnv "a" (.str "1"))).bind (Do sampleEnv)).map Outcome.seen
      = some ⟨none, some errRawForm, [], none⟩ :=
  (raw_and_form_rejected sampleEnv (Post sampleEnv "http://x/test") []
    (by decide) (by decide) (by decide) (by decide)
    (.str "x") [120] (by rfl) (by decide) "a" (.str "1")
    (.strMap [("b", "2")]) [("b", ["2"])] (by rfl) (by decide)).1

/-- C2 as stated fails: on a GET Requester a raw body followed by a form field
makes Do return the "use POST" error, not "raw, form only choose one"; and on a
POST Requester whose request a header call has built already, the same two
calls leave Do without error, with one transport invocation. -/
theorem raw_and_form_not_always_rejected :
    ((applyOps sampleEnv [.setRawData (.str "x"), .addFormField "a" (.str "1")]
        (New sampleEnv "GET" "http://x/test")).bind (Do sampleEnv)).map Outcome.seen
      = some ⟨none, some errUsePost, [], none⟩ ∧
    errUsePost ≠ errRawForm ∧
    ((applyOps sampleEnv
        [.setHeader "X-A" "1", .setRawData (.str "x"), .addFormField "a" (.str "1")]
        (Post sampleEnv "http://x/test")).bind (Do sampleEnv)).map
          (fun o => (o.err, o.calls.length))
      = some (none, 1) := by
  refine ⟨?_, ?_, ?_⟩
  · decide
  · decide
  · decide

/-- C3, amended: on a Requester with no error, no built request, a form-field
map that is not nil and a method other than "POST", after a SetRawData that
sets at least one byte, an AddFormField, a SetFormField, a SetFormFields whose
encoder yields a map that is not empty, or an AddFormFile of at least one
file, Do returns no response and the "use POST" error, builds no request and
never invokes the transport. -/
theorem body_needs_post (E : Env) (r : Requester) (m : StrMap)
    (hE : r.Error = none) (hq : r.request = none) (hm : r.method ≠ "POST")
    (hf : r.formFields = some m)
    (v : Value) (d : Bytes) (hv : byteRawData E v = .ok d) (hd : d ≠ [])
    (key : String) (val : Value)
    (fv : Value) (fm : StrMap) (hfv : E.toValues fv = .ok fm) (hfm : fm ≠ [])
    (files : List FormFile) (hfiles : files ≠ []) :
    ((SetRawData E v r).bind (Do E)).map Outcome.seen
        = some ⟨none, some errUsePost, [], none⟩ ∧
    ((AddFormField E key val r).bind (Do E)).map Outcome.seen
        = some ⟨none, some errUsePost, [], none⟩ ∧
    ((SetFormField E key val r).bind (Do E)).map Outcome.seen
        = some ⟨none, some errUsePost, [], none⟩ ∧
    ((SetFormFields E fv r).bind (Do E)).map Outcome.seen
        = some ⟨none, some errUsePost, [], none⟩ ∧
    ((AddFormFile files r).bind (Do E)).map Outcome.seen
        = some ⟨none, some errUsePost, [], none⟩ := by
  refine ⟨?_, ?_, ?_, ?_, ?_⟩
  · rw [SetRawData_ok E r v d hE hv, Option.some_bind]
    exact Do_usePost E _ hE hq hm (Or.inl hd)
  · obtain ⟨m1, hm1, h1⟩ := AddFormField_some E r m key val hE hf
    rw [h1, Option.some_bind]
    exact Do_usePost E _ hE hq hm (Or.inr (Or.inl (lenFields_some_ne_zero m1 hm1)))
  · obtain ⟨m1, hm1, h1⟩ := SetFormField_some E r m key val hE hf
    rw [h1, Option.some_bind]
    exact Do_usePost E _ hE hq hm (Or.inr (Or.inl (lenFields_some_ne_zero m1 hm1)))
  · rw [SetFormFields_ok E r fv fm hE hfv, Option.some_bind]
    exact Do_usePost E _ hE hq hm (Or.inr (Or.inl (lenFields_some_ne_zero fm hfm)))
  · have h1 : AddFormFile files r = some { r with formFiles := r.formFiles ++ files } := by
      simp [AddFormFile, hE]
    rw [h1, Option.some_bind]
    exact Do_usePost E _ hE hq hm (Or.inr (Or.inr (by simp [hfiles])))

/-- C3 at a concrete input: a GET Requester and a one-byte raw body. -/
theorem body_needs_post_witness :
    ((SetRawData sampleEnv (.str "x") (New sampleEnv "GET" "http://x/test")).bind
        (Do sampleEnv)).map Outcome.seen
      = some ⟨none, some errUsePost, [], none⟩ :=
  (body_needs_post sampleEnv (New sampleEnv "GET" "http://x/test") []
    (by decide) (by decide) (by decide) (by decide)
    (.str "x") [120] (by rfl) (by decide) "a" (.str "1")
    (.strMap [("b", "2")]) [("b", ["2"])] (by rfl) (by decide)
    [⟨"f", "a.txt", [1]⟩] (by decide)).1

/-- C3 as stated fails: on a GET Requester whose request a header call has
built already, setting a raw body leaves Do without error, with one transport
invocation of the request built before; and the empty raw body set on a fresh
GET Requester is no error either. -/
theorem body_on_get_not_always_rejected :
    ((applyOps sampleEnv [.setHeader "X-A" "1", .setRawData (.str "x")]
        (New sampleEnv "GET" "http://x/test")).bind (Do sampleEnv)).map
          (fun o => (o.err, o.calls.length, o.req.rawData))
      = some (none, 1, [120]) ∧
    ((SetRawData sampleEnv (.str "") (New sampleEnv "GET" "http://x/test")).bind
        (Do sampleEnv)).map (fun o => (o.err, o.calls.length))
      = some (none, 1) := by
  refine ⟨?_, ?_⟩
  · decide
  · decide

/-! ## AddFormField on a key that is present (C4) -/

/-- C4 at its failing input: a second AddFormField on the same key leaves the
key with the first value only; the second value is not appended. -/
theorem AddFormField_second_value_lost :
    (applyOps sampleEnv [.addFormField "k" (.str "a"), .addFormField "k" (.str "b")]
        (Post sampleEnv "http://x/test")).map (fun r => r.formFields)
      = some (some [("k", ["a"])]) ∧
    sampleSprint (.str "b") = "b" := by
  refine ⟨?_, ?_⟩
  · decide
  · decide

/-! ## Content type of a form body (C5) -/

theorem mapLookup_mapAssign_self (m : StrMap) (key : String) (v : List String) :
    mapLookup (mapAssign m key v) key = some v := by
  induction m with
  | nil => simp [mapAssign, mapLookup]
  | cons kv rest ih =>
    obtain ⟨k, w⟩ := kv
    by_cases hk : k = key
    · simp [mapAssign, mapLookup, hk]
    · simp [mapAssign, mapLookup, hk, ih]

theorem headerGet_headerSet (E : Env) (h : StrMap) (key val : String) :
    headerGet E (headerSet E h key val) key = val := by
  simp [headerGet, headerSet, mapLookup_mapAssign_self]

/-- C5, amended: on a POST Requester with no error, no built request and empty
raw data, whatever content type it holds (such as one set by PostData), when
the form encoder succeeds with content type `fct` and `http.NewRequest`
accepts the method and URL, materialization builds a request whose body is the
form encoder's; the Requester's content type becomes `fct`, the request's
Content-Type header is `fct` when `fct` is not empty, and the request has no
header at all when it is. -/
theorem form_content_type_replaces_override (E : Env) (r : Requester) (u : URL)
    (fct : String) (body : Bytes)
    (hE : r.Error = none) (hq : r.request = none) (hm : r.method = "POST")
    (hd : r.rawData = []) (hu : r.url = some u)
    (hb : E.buildFormData r.formFields r.formFiles = .ok (fct, body))
    (hn : E.newRequestErr "POST" (E.urlString u) = none) :
    ∃ q : Request, httpRequest E r = some { r with contentType := fct, request := some q } ∧
      q.Method = "POST" ∧ q.URL = E.urlString u ∧ q.Body = body ∧
      (fct ≠ "" → headerGet E q.Header "Content-Type" = fct) ∧
      (fct = "" → q.Header = []) := by
  by_cases hfct : fct = ""
  · refine ⟨{ Method := "POST", URL := E.urlString u, Header := [], Body := body }, ?_⟩
    simp [httpRequest, hE, hq, hm, hd, hb, buildRequest, hu, httpNewRequest, hn, hfct]
  · refine ⟨{ Method := "POST", URL := E.urlString u,
              Header := headerSet E [] "Content-Type" fct, Body := body }, ?_⟩
    simp [httpRequest, hE, hq, hm, hd, hb, buildRequest, hu, httpNewRequest, hn, hfct,
      headerGet_headerSet]

/-- C5 at a concrete input: the Requester that PostData with content type
"text/plain" and the empty raw body, followed by AddFormField, leaves. -/
theorem form_content_type_replaces_override_witness :
    ∃ q : Request, httpRequest sampleEnv
        { Error := none, client := some defaultClient, url := some ⟨"http://x/test", "", ""⟩,
          request := none, method := "POST", contentType := "text/plain", rawData := [],
          formFields := some [("a", ["1"])], formFiles := [] }
      = some
        { Error := none, client := some defaultClient, url := some ⟨"http://x/test", "", ""⟩,
          request := some q, method := "POST",
          contentType := "application/x-www-form-urlencoded", rawData := [],
          formFields := some [("a", ["1"])], formFiles := [] } ∧
      q.Method = "POST" ∧ q.URL = "http://x/test" ∧ q.Body = stringBytes "a=1" ∧
      headerGet sampleEnv q.Header "Content-Type" = "application/x-www-form-urlencoded" :=
  (form_content_type_replaces_override sampleEnv
    { Error := none, client := some defaultClient, url := some ⟨"http://x/test", "", ""⟩,
      request := none, method := "POST", contentType := "text/plain", rawData := [],
      formFields := some [("a", ["1"])], formFiles := [] }
    ⟨"http://x/test", "", ""⟩ "application/x-www-form-urlencoded" (stringBytes "a=1")
    rfl rfl rfl rfl rfl (by rfl) (by rfl)).elim
    (fun q h => ⟨q, h.1, h.2.1, h.2.2.1, h.2.2.2.1, h.2.2.2.2.1 (by decide)⟩)

/-- C5 as stated fails: PostData with the override "text/plain" and an empty
raw body, then a form field: the built request carries the form encoder's
content type, not the override. -/
theorem content_type_override_lost :
    ((PostData sampleEnv "http://x/test" "text/plain" (.str "")).bind
        (AddFormField sampleEnv "a" (.str "1"))).map (fun r => (r.contentType, r.rawData))
      = some ("text/plain", []) ∧
    (((PostData sampleEnv "http://x/test" "text/plain" (.str "")).bind
        (AddFormField sampleEnv "a" (.str "1"))).bind (httpRequest sampleEnv)).map
          (fun r => r.request.map (fun q => headerGet sampleEnv q.Header "Content-Type"))
      = some (some "application/x-www-form-urlencoded") := by
  refine ⟨?_, ?_⟩
  · decide
  · decide

/-! ## Appending to the query (C6) -/

theorem stringRawQueryLoop_strings (E : Env) (vs : List String) (splits : List String) :
    stringRawQueryLoop E (vs.map Value.str) splits
      = .ok (String.intercalate "&" (splits ++ vs)) := by
  induction vs generalizing splits with
  | nil => simp [stringRawQueryLoop]
  | cons s rest ih => simp [stringRawQueryLoop, ih]

theorem stringRawQuery_strings (E : Env) (vs : List String) :
    stringRawQuery E (vs.map Value.str) = .ok (String.intercalate "&" vs) := by
  simp [stringRawQuery, stringRawQueryLoop_strings]

/-- C6: on a Requester with no error whose URL has query string `q`,
AddRawQuery of string values `vs` sets the query to the "&"-join of `vs` when
`q` is empty and to `q`, "&" and the join otherwise, and changes nothing else
(whether or not `vs` is empty); and when "http://x/test" parses with an empty
query, Get of it with "a=1" followed by AddRawQuery of "b=2" ends with the
query string "a=1&b=2". -/
theorem AddRawQuery_strings (E : Env) (r : Requester) (u : URL) (vs : List String)
    (hE : r.Error = none) (hu : r.url = some u) :
    AddRawQuery E (vs.map Value.str) r
      = some { r with url := some { u with RawQuery :=
          if u.RawQuery = "" then String.intercalate "&" vs
          else u.RawQuery ++ "&" ++ String.intercalate "&" vs } } ∧
    (∀ u0 : URL, E.parse "http://x/test" = .ok u0 → u0.RawQuery = "" →
      ((Get E "http://x/test" [.str "a=1"]).bind (AddRawQuery E [.str "b=2"])).map
          (fun r1 => r1.url.map URL.RawQuery)
        = some (some "a=1&b=2")) := by
  constructor
  · by_cases hq : u.RawQuery = ""
    · simp [AddRawQuery, hE, hu, stringRawQuery_strings, hq]
    · simp [AddRawQuery, hE, hu, stringRawQuery_strings, hq, String.append_assoc]
  · intro u0 hp h0
    have h1 : stringRawQuery E [Value.str "a=1"] = .ok "a=1" :=
      stringRawQuery_strings E ["a=1"]
    have h2 : stringRawQuery E [Value.str "b=2"] = .ok "b=2" :=
      stringRawQuery_strings E ["b=2"]
    have h3 : ("a=1" : String) ≠ "" := by decide
    have h4 : ("a=1" : String) ++ ("&" ++ "b=2") = "a=1&b=2" := by decide
    simp [Get, New, hp, AddRawQuery, h1, h2, h0, h3, h4]

/-- C6 at a concrete input: a URL that carries the query "a=1" already. -/
theorem AddRawQuery_strings_witness :
    AddRawQuery sampleEnv [.str "b=2"] (New sampleEnv "GET" "http://x/test?a=1")
      = some { New sampleEnv "GET" "http://x/test?a=1" with
          url := some ⟨"http://x/test", "a=1&b=2", ""⟩ } ∧
    ((Get sampleEnv "http://x/test" [.str "a=1"]).bind
        (AddRawQuery sampleEnv [.str "b=2"])).map (fun r1 => r1.url.map URL.RawQuery)
      = some (some "a=1&b=2") :=
  ⟨(AddRawQuery_strings sampleEnv (New sampleEnv "GET" "http://x/test?a=1")
      ⟨"http://x/test", "a=1", ""⟩ ["b=2"] (by decide) (by decide)).1,
   (AddRawQuery_strings sampleEnv (New sampleEnv "GET" "http://x/test?a=1")
      ⟨"http://x/test", "a=1", ""⟩ ["b=2"] (by decide) (by decide)).2
      ⟨"http://x/test", "", ""⟩ (by rfl) (by decide)⟩

/-! ## Execution (C7) -/

theorem buildRequest_built (E : Env) (r r1 : Requester) (body : Bytes)
    (h : buildRequest E r body = some r1) (hE : r1.Error = none) :
    ∃ q : Request, r1.request = some q := by
  unfold buildRequest at h
  split at h
  · simp at h
  · split at h
    · simp only [Option.some.injEq] at h
      subst h
      simp at hE
    · split at h
      · simp only [Option.some.injEq] at h
        subst h
        exact ⟨_, rfl⟩
      · simp only [Option.some.injEq] at h
        subst h
        exact ⟨_, rfl⟩

theorem httpRequest_built (E : Env) (r r1 : Requester)
    (h : httpRequest E r = some r1) (hE : r1.Error = none) :
    ∃ q : Request, r1.request = some q := by
  unfold httpRequest at h
  split at h
  · simp only [Option.some.injEq] at h
    subst h
    simp_all
  · split at h
    · simp only [Option.some.injEq] at h
      subst h
      exact ⟨_, by assumption⟩
    · split at h
      · simp only [Option.some.injEq] at h
        subst h
        simp at hE
      · split at h
        · simp only [Option.some.injEq] at h
          subst h
          simp at hE
        · split at h
          · exact buildRequest_built E _ _ _ h hE
          · split at h
            · simp only [Option.some.injEq] at h
              subst h
              simp at hE
            · exact buildRequest_built E _ _ _ h hE

theorem Do_of_transport (E : Env) (r r1 : Requester) (c : Client)
    (h : httpRequest E r = some r1) (hE : r1.Error = none) (hc : r1.client = some c) :
    Do E r = some { req := r1, value := (E.clientDo r1.client r1.request).1,
                    err := (E.clientDo r1.client r1.request).2,
                    calls := [(r1.client, r1.request)], closed := [] } := by
  simp [Do, h, hE, hc]

theorem Do_of_nil_client (E : Env) (r r1 : Requester)
    (h : httpRequest E r = some r1) (hE : r1.Error = none) (hc : r1.client = none) :
    Do E r = none := by
  simp [Do, h, hE, hc]

/-- C7, amended: Do first materializes (and panics when materialization does);
if Error is set afterwards, Do returns no response and that Error and the
transport is never invoked; otherwise the request is built, and when the
client is not nil the transport is invoked exactly once, on that client and
the built request, and Do returns the transport's response and error as they
are, while on a nil client the call panics. -/
theorem Do_spec (E : Env) (r : Requester) :
    match httpRequest E r with
    | none => Do E r = none
    | some r1 =>
      match r1.Error with
      | some e =>
        Do E r = some { req := r1, value := none, err := some e, calls := [], closed := [] }
      | none =>
        ∃ q : Request, r1.request = some q ∧
          match r1.client with
          | none => Do E r = none
          | some c =>
            Do E r = some { req := r1, value := (E.clientDo (some c) (some q)).1,
                            err := (E.clientDo (some c) (some q)).2,
                            calls := [(some c, some q)], closed := [] } := by
  cases h : httpRequest E r with
  | none => simp [Do, h]
  | some r1 =>
    cases hE : r1.Error with
    | some e => simp [Do, h, hE]
    | none =>
      obtain ⟨q, hq⟩ := httpRequest_built E r r1 h hE
      simp only [hE]
      refine ⟨q, hq, ?_⟩
      cases hc : r1.client with
      | none => exact Do_of_nil_client E r r1 h hE hc
      | some c =>
        simp only [hc]
        rw [Do_of_transport E r r1 c h hE hc, hc, hq]

/-- C7 as stated fails: on the Requester that NewWithClient makes of a nil
client, materialization returns with Error unset and the request built, and
Do then panics instead of returning the transport's response or error. -/
theorem Do_panics_on_nil_client :
    (httpRequest sampleEnv (NewWithClient sampleEnv "GET" "http://x/test" none)).map
        (fun r1 => (r1.Error, r1.client, r1.request.isSome))
      = some (none, none, true) ∧
    Do sampleEnv (NewWithClient sampleEnv "GET" "http://x/test" none) = none := by
  refine ⟨?_, ?_⟩
  · decide
  · decide

/-! ## Unparsable URLs (C8) -/

theorem applyOp_of_error (E : Env) (op : ConfigOp) (r : Requester) (e : GoError)
    (h : r.Error = some e) : applyOp E op r = some r := by
  cases op <;>
    simp [applyOp, AddRawQuery, SetRawQuery, SetRawData, SetFormFields, AddFormField,
      SetFormField, AddFormFile, SetHeader, AddHeader, httpRequest, h]

theorem applyOps_of_error (E : Env) (ops : List ConfigOp) (r : Requester) (e : GoError)
    (h : r.Error = some e) : applyOps E ops r = some r := by
  induction ops with
  | nil => simp [applyOps]
  | cons op rest ih => simp [applyOps, applyOp_of_error E op r e h, ih]

theorem Do_of_error (E : Env) (r : Requester) (e : GoError) (h : r.Error = some e) :
    Do E r = some { req := r, value := none, err := some e, calls := [], closed := [] } := by
  simp [Do, httpRequest, h]

theorem ReadData_of_error (E : Env) (r : Requester) (e : GoError) (h : r.Error = some e) :
    ReadData E r = some { req := r, value := [], err := some e, calls := [], closed := [] } := by
  simp [ReadData, Do_of_error E r e h]

theorem ReadString_of_error (E : Env) (r : Requester) (e : GoError) (h : r.Error = some e) :
    ReadString E r = some { req := r, value := [], err := some e, calls := [], closed := [] } := by
  simp [ReadString, ReadData_of_error E r e h]

theorem ReadJSON_of_error (E : Env) (r : Requester) (e : GoError) (h : r.Error = some e) :
    ReadJSON E r = some { req := r, value := (), err := some e, calls := [], closed := [] } := by
  simp [ReadJSON, ReadData_of_error E r e h]

/-- C8: when the URL fails to parse with error `e`, New and NewWithClient
return the Requester whose only set field is Error, equal to `e`, and after
any chain of configuration calls on it Do, ReadData, ReadString and ReadJSON
return `e`, with no response or data and no transport invocation; when the
URL parses to `u`, New returns a Requester with Error unset, the default
client, the given method, the URL `u`, no request, and empty raw data, form
fields and form files. -/
theorem New_spec (E : Env) (method toURL : String) (client : Option Client) :
    (∀ e : GoError, E.parse toURL = .error e →
      New E method toURL = errRequester e ∧
      NewWithClient E method toURL client = errRequester e ∧
      (New E method toURL).Error = some e ∧
      ∀ ops : List ConfigOp,
        applyOps E ops (New E method toURL) = some (errRequester e) ∧
        applyOps E ops (NewWithClient E method toURL client) = some (errRequester e) ∧
        (applyOps E ops (New E method toURL)).bind (Do E)
          = some { req := errRequester e, value := none, err := some e, calls := [],
                   closed := [] } ∧
        (applyOps E ops (New E method toURL)).bind (ReadData E)
          = some { req := errRequester e, value := [], err := some e, calls := [],
                   closed := [] } ∧
        (applyOps E ops (New E method toURL)).bind (ReadString E)
          = some { req := errRequester e, value := [], err := some e, calls := [],
                   closed := [] } ∧
        (applyOps E ops (New E method toURL)).bind (ReadJSON E)
          = some { req := errRequester e, value := (), err := some e, calls := [],
                   closed := [] }) ∧
    (∀ u : URL, E.parse toURL = .ok u →
      New E method toURL
        = { Error := none, client := some defaultClient, url := some u, request := none,
            method := method, contentType := "", rawData := [], formFields := some [],
            formFiles := [] }) := by
  constructor
  · intro e hp
    have hN : New E method toURL = errRequester e := by simp [New, hp]
    have hW : NewWithClient E method toURL client = errRequester e := by
      simp [NewWithClient, hp]
    have hE : (errRequester e).Error = some e := rfl
    refine ⟨hN, hW, by rw [hN, hE], ?_⟩
    intro ops
    rw [hN, hW, applyOps_of_error E ops _ e hE]
    exact ⟨rfl, rfl, Do_of_error E _ e hE, ReadData_of_error E _ e hE,
      ReadString_of_error E _ e hE, ReadJSON_of_error E _ e hE⟩
  · intro u hp
    simp [New, hp]

/-- C8 at a concrete input: a URL without scheme, then two configuration
calls, then ReadString. -/
theorem New_spec_witness :
    (applyOps sampleEnv [.setRawData (.str "x"), .setHeader "X-A" "1"]
        (New sampleEnv "POST" ":bad")).bind (ReadString sampleEnv)
      = some { req := errRequester ⟨"missing protocol scheme"⟩, value := [],
               err := some ⟨"missing protocol scheme"⟩, calls := [], closed := [] } ∧
    New sampleEnv "POST" "http://x/test?a=1"
      = { Error := none, client := some defaultClient,
          url := some ⟨"http://x/test", "a=1", ""⟩, request := none, method := "POST",
          contentType := "", rawData := [], formFields := some [], formFiles := [] } :=
  ⟨((((New_spec sampleEnv "POST" ":bad" none).1 ⟨"missing protocol scheme"⟩ (by rfl)).2.2.2
      [.setRawData (.str "x"), .setHeader "X-A" "1"]).2.2.2.2.1),
   (New_spec sampleEnv "POST" "http://x/test?a=1" none).2 ⟨"http://x/test", "a=1", ""⟩ (by rfl)⟩

/-! ## Idempotent materialization (C9) -/

theorem httpRequest_of_built (E : Env) (r : Requester) (q : Request)
    (hE : r.Error = none) (hq : r.request = some q) : httpRequest E r = some r := by
  simp [httpRequest, hE, hq]

theorem httpRequest_fixed (E : Env) (r r1 : Requester) (h : httpRequest E r = some r1) :
    httpRequest E r1 = some r1 := by
  cases hE : r1.Error with
  | some e => exact httpRequest_of_error E r1 e hE
  | none =>
    obtain ⟨q, hq⟩ := httpRequest_built E r r1 h hE
    exact httpRequest_of_built E r1 q hE hq

theorem SetHeader_result (E : Env) (key val : String) (r r1 : Requester)
    (h : SetHeader E key val r = some r1) :
    (∃ e : GoError, r1.Error = some e) ∨ (r1.Error = none ∧ ∃ q : Request, r1.request = some q) := by
  unfold SetHeader at h
  split at h
  · simp at h
  · split at h
    · simp only [Option.some.injEq] at h
      subst h
      exact Or.inl ⟨_, by assumption⟩
    · split at h
      · simp at h
      · simp only [Option.some.injEq] at h
        subst h
        exact Or.inr ⟨by assumption, _, rfl⟩

/-- C9: materialization is idempotent, httpRequest after httpRequest is
httpRequest; and when SetHeader has returned a Requester, materializing it
again changes nothing, a following SetHeader or AddHeader returns it unchanged
if its Error is set, and otherwise keeps the request built by the first call
(same method, URL and body) and changes its headers by that one Set or Add
only. -/
theorem httpRequest_idempotent (E : Env) (r : Requester) (k1 v1 k2 v2 : String) :
    (httpRequest E r).bind (httpRequest E) = httpRequest E r ∧
    ∀ r1 : Requester, SetHeader E k1 v1 r = some r1 →
      httpRequest E r1 = some r1 ∧
      ((∃ e : GoError, r1.Error = some e) →
        SetHeader E k2 v2 r1 = some r1 ∧ AddHeader E k2 v2 r1 = some r1) ∧
      (r1.Error = none →
        ∃ q : Request, r1.request = some q ∧
          SetHeader E k2 v2 r1
            = some { r1 with request := some { q with Header := headerSet E q.Header k2 v2 } } ∧
          AddHeader E k2 v2 r1
            = some { r1 with request := some { q with Header := headerAdd E q.Header k2 v2 } }) := by
  constructor
  · cases h : httpRequest E r with
    | none => simp
    | some r1 => simpa using httpRequest_fixed E r r1 h
  · intro r1 h
    have hfix : httpRequest E r1 = some r1 := by
      rcases SetHeader_result E k1 v1 r r1 h with ⟨e, he⟩ | ⟨hE, q, hq⟩
      · exact httpRequest_of_error E r1 e he
      · exact httpRequest_of_built E r1 q hE hq
    refine ⟨hfix, ?_, ?_⟩
    · rintro ⟨e, he⟩
      simp [SetHeader, AddHeader, hfix, he]
    · intro hE
      rcases SetHeader_result E k1 v1 r r1 h with ⟨e, he⟩ | ⟨_, q, hq⟩
      · simp [hE] at he
      · exact ⟨q, hq, by simp [SetHeader, hfix, hE, hq], by simp [AddHeader, hfix, hE, hq]⟩

/-- C9 at a concrete input: SetHeader on a fresh GET Requester returns
`sampleBuilt`, on which a second SetHeader or AddHeader only edits the
headers of the request built by the first call. -/
theorem httpRequest_idempotent_witness :
    SetHeader sampleEnv "X-A" "1" (New sampleEnv "GET" "http://x/test") = some sampleBuilt ∧
    httpRequest sampleEnv sampleBuilt = some sampleBuilt ∧
    ∃ q : Request, sampleBuilt.request = some q ∧
      SetHeader sampleEnv "X-B" "2" sampleBuilt
        = some { sampleBuilt with
            request := some { q with Header := headerSet sampleEnv q.Header "X-B" "2" } } ∧
      AddHeader sampleEnv "X-B" "2" sampleBuilt
        = some { sampleBuilt with
            request := some { q with Header := headerAdd sampleEnv q.Header "X-B" "2" } } :=
  ⟨by decide,
   ((httpRequest_idempotent sampleEnv (New sampleEnv "GET" "http://x/test")
      "X-A" "1" "X-B" "2").2 sampleBuilt (by decide)).1,
   ((httpRequest_idempotent sampleEnv (New sampleEnv "GET" "http://x/test")
      "X-A" "1" "X-B" "2").2 sampleBuilt (by decide)).2.2 (by decide)⟩

/-! ## The built request is frozen (C10) -/

theorem applyOp_field_frozen (E : Env) (op : ConfigOp) (r r1 : Requester)
    (hop : op.isHeader = false) (h : applyOp E op r = some r1) :
    r1.request = r.request ∧ r1.client = r.client := by
  cases op <;> simp [ConfigOp.isHeader] at hop <;>
    simp only [applyOp, AddRawQuery, SetRawQuery, SetRawData, SetFormFields, AddFormField,
      SetFormField, AddFormFile] at h <;>
    (repeat' split at h) <;>
    (try simp only [Option.some.injEq, reduceCtorEq] at h) <;>
    (try subst h) <;> simp_all

theorem applyOp_field_total (E : Env) (op : ConfigOp) (r : Requester)
    (hop : op.isHeader = false) (hu : r.url ≠ none) (hf : r.formFields ≠ none) :
    ∃ r1 : Requester, applyOp E op r = some r1 ∧ r1.url ≠ none ∧ r1.formFields ≠ none := by
  obtain ⟨u, hu1⟩ := Option.ne_none_iff_exists'.mp hu
  obtain ⟨m, hm1⟩ := Option.ne_none_iff_exists'.mp hf
  cases op <;> simp [ConfigOp.isHeader] at hop <;>
    simp only [applyOp, AddRawQuery, SetRawQuery, SetRawData, SetFormFields, AddFormField,
      SetFormField, AddFormFile, hu1, hm1] <;>
    (repeat' split) <;> simp_all

theorem applyOps_field_frozen (E : Env) (ops : List ConfigOp) (r r1 : Requester)
    (hops : ∀ op ∈ ops, op.isHeader = false) (h : applyOps E ops r = some r1) :
    r1.request = r.request ∧ r1.client = r.client := by
  induction ops generalizing r with
  | nil =>
    simp only [applyOps, Option.some.injEq] at h
    subst h
    exact ⟨rfl, rfl⟩
  | cons op rest ih =>
    simp only [applyOps] at h
    cases h1 : applyOp E op r with
    | none => simp [h1] at h
    | some r2 =>
      simp only [h1] at h
      have h2 := applyOp_field_frozen E op r r2 (hops op (by simp)) h1
      have h3 := ih r2 (fun o ho => hops o (by simp [ho])) h
      exact ⟨h3.1.trans h2.1, h3.2.trans h2.2⟩

theorem applyOps_field_total (E : Env) (ops : List ConfigOp) (r : Requester)
    (hops : ∀ op ∈ ops, op.isHeader = false) (hu : r.url ≠ none) (hf : r.formFields ≠ none) :
    ∃ r1 : Requester, applyOps E ops r = some r1 := by
  induction ops generalizing r with
  | nil => exact ⟨r, rfl⟩
  | cons op rest ih =>
    obtain ⟨r2, h2, hu2, hf2⟩ := applyOp_field_total E op r (hops op (by simp)) hu hf
    obtain ⟨r3, h3⟩ := ih r2 (fun o ho => hops o (by simp [ho])) hu2 hf2
    exact ⟨r3, by simp [applyOps, h2, h3]⟩

/-- C10, amended: once the request `q` has been built, any chain of AddRawQuery,
SetRawQuery, SetRawData, SetFormFields, AddFormField, SetFormField and
AddFormFile calls runs to its end when the URL and the form-field map are not
nil, and the Requester it returns holds the same request `q` (method, URL,
body and headers); when Error is unset after the chain, a subsequent Do
invokes the transport exactly once, on the Requester's client and `q`, if
that client is not nil, and panics if it is nil; and when an encoder of the
chain has failed (or Error was set before) Do returns that Error without
invoking the transport. -/
theorem built_request_frozen (E : Env) (r : Requester) (q : Request) (ops : List ConfigOp)
    (hq : r.request = some q) (hops : ∀ op ∈ ops, op.isHeader = false) :
    (r.url ≠ none → r.formFields ≠ none → ∃ r1 : Requester, applyOps E ops r = some r1) ∧
    ∀ r1 : Requester, applyOps E ops r = some r1 →
      r1.request = some q ∧
      (∀ c : Client, r.client = some c → r1.Error = none →
        Do E r1 = some { req := r1, value := (E.clientDo (some c) (some q)).1,
                         err := (E.clientDo (some c) (some q)).2,
                         calls := [(some c, some q)], closed := [] }) ∧
      (r.client = none → r1.Error = none → Do E r1 = none) ∧
      (∀ e : GoError, r1.Error = some e →
        Do E r1 = some { req := r1, value := none, err := some e, calls := [], closed := [] }) := by
  refine ⟨applyOps_field_total E ops r hops, ?_⟩
  intro r1 h
  obtain ⟨h1, h2⟩ := applyOps_field_frozen E ops r r1 hops h
  have hq1 : r1.request = some q := h1.trans hq
  refine ⟨hq1, ?_, ?_, ?_⟩
  · intro c hc hE
    have hc1 : r1.client = some c := h2.trans hc
    rw [Do_of_transport E r1 r1 c (httpRequest_of_built E r1 q hE hq1) hE hc1, hc1, hq1]
  · intro hc hE
    exact Do_of_nil_client E r1 r1 (httpRequest_of_built E r1 q hE hq1) hE (h2.trans hc)
  · intro e he
    exact Do_of_error E r1 e he

/-- C10 at a concrete input: on the built GET Requester `sampleBuilt`, a query
and a raw body set afterwards change the builder, not the request it holds,
and Do sends that request. -/
theorem built_request_frozen_witness :
    applyOps sampleEnv [.addRawQuery [.str "b=2"], .setRawData (.str "x")] sampleBuilt
      = some { sampleBuilt with url := some ⟨"http://x/test", "b=2", ""⟩, rawData := [120] } ∧
    Do sampleEnv { sampleBuilt with url := some ⟨"http://x/test", "b=2", ""⟩, rawData := [120] }
      = some { req := { sampleBuilt with
                 url := some ⟨"http://x/test", "b=2", ""⟩, rawData := [120] },
               value := (sampleEnv.clientDo sampleBuilt.client sampleBuilt.request).1,
               err := (sampleEnv.clientDo sampleBuilt.client sampleBuilt.request).2,
               calls := [(sampleBuilt.client, sampleBuilt.request)], closed := [] } :=
  ⟨by decide,
   ((built_request_frozen sampleEnv sampleBuilt
      ⟨"GET", "http://x/test",
        [("Content-Type", ["application/x-www-form-urlencoded"]), ("X-A", ["1"])], []⟩
      [.addRawQuery [.str "b=2"], .setRawData (.str "x")] (by rfl) (by decide)).2
      { sampleBuilt with url := some ⟨"http://x/test", "b=2", ""⟩, rawData := [120] }
      (by decide)).2.1 defaultClient (by decide) (by decide)⟩

/-- C10 as stated fails: after the request is built, a SetRawData whose encoder
fails sets Error, and the subsequent Do returns that error and dispatches
nothing, though the built request is still held; and on a Requester made with
a nil client the chain ends with the request built and Error unset, yet Do
panics. -/
theorem built_request_not_always_dispatched :
    ((applyOps sampleEnv [.setHeader "X-A" "1", .setRawData .chan]
        (Post sampleEnv "http://x/test")).bind (Do sampleEnv)).map
          (fun o => (o.err, o.calls, o.req.request.isSome))
      = some (some ⟨"json: unsupported type: chan int"⟩, [], true) ∧
    (applyOps sampleEnv [.setHeader "X-A" "1", .setRawData (.str "x")]
        (NewWithClient sampleEnv "POST" "http://x/test" none)).map
          (fun r1 => (r1.Error, r1.request.isSome))
      = some (none, true) ∧
    (applyOps sampleEnv [.setHeader "X-A" "1", .setRawData (.str "x")]
        (NewWithClient sampleEnv "POST" "http://x/test" none)).bind (Do sampleEnv)
      = none := by
  refine ⟨?_, ?_, ?_⟩
  · decide
  · decide
  · decide

/-! ## Status policy of ReadData (C11) -/

/-- C11, amended: when the transport, reached through a client that is not
nil, returns the response `resp` and no error, ReadData on a status code other
than 200 fails with the error whose message is
exactly the status text and returns no bytes; on status code 200 it returns
what draining the body gives, the entire body and no error when draining
succeeds, and the bytes read together with the draining error when it fails.
So ReadData fails exactly when the status code is not 200 or draining
fails. -/
theorem ReadData_status (E : Env) (r r1 : Requester) (resp : Response) (c : Client)
    (h : httpRequest E r = some r1) (hE : r1.Error = none) (hcl : r1.client = some c)
    (hc : E.clientDo r1.client r1.request = (some resp, none)) :
    (resp.StatusCode ≠ 200 →
      ReadData E r = some { req := r1, value := [], err := some ⟨resp.Status⟩,
                            calls := [(r1.client, r1.request)], closed := [resp] }) ∧
    (resp.StatusCode = 200 →
      ReadData E r = some { req := r1, value := resp.Body, err := resp.BodyErr,
                            calls := [(r1.client, r1.request)], closed := [resp] }) ∧
    ((ReadData E r).bind (fun o => o.err) ≠ none ↔
      (resp.StatusCode ≠ 200 ∨ resp.BodyErr ≠ none)) := by
  have hD := Do_of_transport E r r1 c h hE hcl
  rw [hc] at hD
  by_cases hs : resp.StatusCode = 200
  · simp [ReadData, hD, hs]
  · simp [ReadData, hD, hs]

/-- C11 at a concrete input: the response "404 Not Found". -/
theorem ReadData_status_witness :
    ReadData (replyEnv ⟨404, "404 Not Found", [1, 2], none⟩) sampleBuilt
      = some { req := sampleBuilt, value := [], err := some ⟨"404 Not Found"⟩,
               calls := [(sampleBuilt.client, sampleBuilt.request)],
               closed := [⟨404, "404 Not Found", [1, 2], none⟩] } :=
  (ReadData_status (replyEnv ⟨404, "404 Not Found", [1, 2], none⟩) sampleBuilt sampleBuilt
    ⟨404, "404 Not Found", [1, 2], none⟩ defaultClient (by decide) (by decide) (by decide)
    (by rfl)).1 (by decide)

/-- C11 as stated fails: a response with status code 200 whose body cannot be
drained to its end makes ReadData fail, with the draining error. -/
theorem ReadData_fails_on_status_200 :
    (ReadData (replyEnv ⟨200, "200 OK", [1, 2], some ⟨"unexpected EOF"⟩⟩)
        (New (replyEnv ⟨200, "200 OK", [1, 2], some ⟨"unexpected EOF"⟩⟩) "GET"
          "http://x/test")).map (fun o => (o.err, o.value))
      = some (some ⟨"unexpected EOF"⟩, [1, 2]) := by
  decide

/-! ## Closing the response body (C12) -/

/-- C12: when Do returns an error, from materialization or from the transport,
ReadData closes no response body; when the transport, reached through a client
that is not nil, returns the response `resp` and no error, ReadData closes the
body of `resp` exactly once and no other, on each of its three exits: the
status check rejecting the response, draining succeeding, and draining
failing. -/
theorem ReadData_closes (E : Env) (r r1 : Requester) (c : Client)
    (h : httpRequest E r = some r1) (hcl : r1.Error = none → r1.client = some c) :
    (∀ e : GoError, r1.Error = some e →
      (ReadData E r).map (fun o => (o.err, o.closed)) = some (some e, [])) ∧
    (∀ e : GoError, r1.Error = none → (E.clientDo r1.client r1.request).2 = some e →
      (ReadData E r).map (fun o => (o.err, o.closed)) = some (some e, [])) ∧
    (∀ resp : Response, r1.Error = none →
      E.clientDo r1.client r1.request = (some resp, none) →
      (resp.StatusCode ≠ 200 →
        (ReadData E r).map (fun o => (o.err, o.closed))
          = some (some ⟨resp.Status⟩, [resp])) ∧
      (resp.StatusCode = 200 → resp.BodyErr = none →
        (ReadData E r).map (fun o => (o.err, o.closed)) = some (none, [resp])) ∧
      (∀ e : GoError, resp.StatusCode = 200 → resp.BodyErr = some e →
        (ReadData E r).map (fun o => (o.err, o.closed)) = some (some e, [resp]))) := by
  refine ⟨?_, ?_, ?_⟩
  · intro e he
    simp [ReadData, Do_of_httpRequest_error E r r1 e h he]
  · intro e hE hc
    simp [ReadData, Do_of_transport E r r1 c h hE (hcl hE), hc]
  · intro resp hE hc
    have hD := Do_of_transport E r r1 c h hE (hcl hE)
    rw [hc] at hD
    refine ⟨?_, ?_, ?_⟩
    · intro hs
      simp [ReadData, hD, hs]
    · intro hs hb
      simp [ReadData, hD, hs, hb]
    · intro e hs hb
      simp [ReadData, hD, hs, hb]

/-- C12 at a concrete input: the response "404 Not Found" is closed once. -/
theorem ReadData_closes_witness :
    (ReadData (replyEnv ⟨404, "404 Not Found", [1, 2], none⟩) sampleBuilt).map
        (fun o => (o.err, o.closed))
      = some (some ⟨"404 Not Found"⟩, [⟨404, "404 Not Found", [1, 2], none⟩]) :=
  ((ReadData_closes (replyEnv ⟨404, "404 Not Found", [1, 2], none⟩) sampleBuilt sampleBuilt
    defaultClient (by decide) (by decide)).2.2
    ⟨404, "404 Not Found", [1, 2], none⟩ (by decide) (by rfl)).1 (by decide)

/-! ## JSON bodies (C13) and raw bytes (C14) -/

theorem byteRawData_other (E : Env) (v : Value) (hs : ∀ s : String, v ≠ .str s)
    (hb : ∀ b : Bytes, v ≠ .bytes b) : byteRawData E v = E.jsonMarshal v := by
  cases v with
  | str s => exact absurd rfl (hs s)
  | bytes b => exact absurd rfl (hb b)
  | int n => simp only [byteRawData]; cases E.jsonMarshal (.int n) <;> rfl
  | strMap m => simp only [byteRawData]; cases E.jsonMarshal (.strMap m) <;> rfl
  | chan => simp only [byteRawData]; cases E.jsonMarshal .chan <;> rfl

theorem httpRequest_raw (E : Env) (r : Requester) (u : URL)
    (hE : r.Error = none) (hq : r.request = none) (hm : r.method = "POST")
    (hd : r.rawData ≠ []) (hf : lenFields r.formFields = 0) (hfl : r.formFiles = [])
    (hu : r.url = some u) (hct : r.contentType ≠ "")
    (hn : E.newRequestErr "POST" (E.urlString u) = none) :
    httpRequest E r
      = some { r with request := some ⟨"POST", E.urlString u,
                headerSet E [] "Content-Type" r.contentType, r.rawData⟩ } := by
  have hd2 : r.rawData.length ≠ 0 := by simpa [List.length_eq_zero] using hd
  simp [httpRequest, hE, hq, hm, hd2, hf, hfl, buildRequest, hu, httpNewRequest, hn, hct]

/-- C13, amended: for a URL that parses and is accepted by `http.NewRequest`,
and a value `v` that is neither a string nor a byte slice and whose JSON
serialization `d` succeeds with at least one byte, PostJSON yields a POST
Requester with no error, content type "application/json" and raw data `d`, and
materializing it builds a POST request whose body is `d` and whose
Content-Type header is "application/json".  For a string the raw data is the
bytes of the string itself, whatever its JSON serialization is. -/
theorem PostJSON_spec (E : Env) (toURL : String) (u : URL) (v : Value) (d : Bytes)
    (hp : E.parse toURL = .ok u) (hs : ∀ s : String, v ≠ .str s)
    (hb : ∀ b : Bytes, v ≠ .bytes b) (hj : E.jsonMarshal v = .ok d) (hd : d ≠ [])
    (hn : E.newRequestErr "POST" (E.urlString u) = none) :
    (∃ r : Requester, PostJSON E toURL v = some r ∧ r.Error = none ∧ r.method = "POST" ∧
      r.contentType = "application/json" ∧ r.rawData = d ∧
      ∃ q : Request, httpRequest E r = some { r with request := some q } ∧
        q.Method = "POST" ∧ q.Body = d ∧
        headerGet E q.Header "Content-Type" = "application/json") ∧
    (∀ s : String, (PostJSON E toURL (.str s)).map (fun r => (r.contentType, r.rawData))
      = some ("application/json", stringBytes s)) := by
  have hv : byteRawData E v = .ok d := by rw [byteRawData_other E v hs hb, hj]
  constructor
  · have h0 := httpRequest_raw E
      { Error := none, client := some defaultClient, url := some u, request := none,
        method := "POST", contentType := "application/json", rawData := d,
        formFields := some [], formFiles := [] }
      u rfl rfl rfl hd rfl rfl rfl (by simp) hn
    refine ⟨_, ?_, rfl, rfl, rfl, rfl, _, h0, rfl, rfl, ?_⟩
    · simp [PostJSON, New, hp, SetRawData, hv]
    · exact headerGet_headerSet E [] "Content-Type" "application/json"
  · intro s
    simp [PostJSON, New, hp, SetRawData, byteRawData]

/-- C13 at a concrete input: the integer 7, whose JSON serialization is the
one byte of the digit. -/
theorem PostJSON_spec_witness :
    ∃ r : Requester, PostJSON sampleEnv "http://x/test" (.int 7) = some r ∧ r.Error = none ∧
      r.method = "POST" ∧ r.contentType = "application/json" ∧ r.rawData = [55] ∧
      ∃ q : Request, httpRequest sampleEnv r = some { r with request := some q } ∧
        q.Method = "POST" ∧ q.Body = [55] ∧
        headerGet sampleEnv q.Header "Content-Type" = "application/json" :=
  (PostJSON_spec sampleEnv "http://x/test" ⟨"http://x/test", "", ""⟩ (.int 7) [55]
    (by rfl) (by intro s h; cases h) (by intro b h; cases h) (by rfl) (by decide)
    (by rfl)).1

/-- C13 as stated fails: the string "abc" can be serialised as JSON, to the
five bytes of the quoted text, yet PostJSON stores its three bytes as they
are. -/
theorem PostJSON_string_not_serialised :
    (PostJSON sampleEnv "http://x/test" (.str "abc")).map (fun r => r.rawData)
      = some [97, 98, 99] ∧
    sampleJSONMarshal (.str "abc") = .ok [34, 97, 98, 99, 34] := by
  refine ⟨?_, ?_⟩
  · decide
  · rfl

/-- C14: byteRawData never fails on a string or a byte slice, returning the
UTF-8 bytes of the string and the byte slice unchanged; on any other value it
returns what the JSON serialization returns, its bytes or its error; and after
a SetRawData whose byteRawData succeeds, on a Requester with no error, rawData
is the result of byteRawData and nothing else has changed. -/
theorem byteRawData_spec (E : Env) (v : Value) (r : Requester) (hE : r.Error = none) :
    (∀ s : String, byteRawData E (.str s) = .ok (stringBytes s)) ∧
    (∀ b : Bytes, byteRawData E (.bytes b) = .ok b) ∧
    ((∀ s : String, v ≠ .str s) → (∀ b : Bytes, v ≠ .bytes b) →
      byteRawData E v = E.jsonMarshal v ∧
      ((∃ e : GoError, byteRawData E v = .error e) ↔ ∃ e : GoError, E.jsonMarshal v = .error e)) ∧
    (∀ d : Bytes, byteRawData E v = .ok d → SetRawData E v r = some { r with rawData := d }) := by
  refine ⟨fun s => rfl, fun b => rfl, ?_, ?_⟩
  · intro hs hb
    have h := byteRawData_other E v hs hb
    exact ⟨h, by rw [h]⟩
  · intro d hd
    exact SetRawData_ok E r v d hE hd

/-- C14 at a concrete input: the integer 7 set as raw data on a fresh POST
Requester. -/
theorem byteRawData_spec_witness :
    byteRawData sampleEnv (.int 7) = sampleEnv.jsonMarshal (.int 7) ∧
    SetRawData sampleEnv (.int 7) (Post sampleEnv "http://x/test")
      = some { Post sampleEnv "http://x/test" with rawData := [55] } :=
  ⟨((byteRawData_spec sampleEnv (.int 7) (Post sampleEnv "http://x/test") (by decide)).2.2.1
      (by intro s h; cases h) (by intro b h; cases h)).1,
   (byteRawData_spec sampleEnv (.int 7) (Post sampleEnv "http://x/test") (by decide)).2.2.2
      [55] (by rfl)⟩

/-! ## The query encoder (C15) -/

theorem stringRawQueryLoop_step_ok (E : Env) (v : Value) (s : String) (rest : List Value)
    (splits : List String) (h : queryFragment E v = .ok s) :
    stringRawQueryLoop E (v :: rest) splits = stringRawQueryLoop E rest (splits ++ [s]) := by
  cases v with
  | str t =>
    simp only [queryFragment, Except.ok.injEq] at h
    subst h
    simp [stringRawQueryLoop]
  | bytes b => simp only [queryFragment] at h; simp [stringRawQueryLoop, h]
  | int n => simp only [queryFragment] at h; simp [stringRawQueryLoop, h]
  | strMap m => simp only [queryFragment] at h; simp [stringRawQueryLoop, h]
  | chan => simp only [queryFragment] at h; simp [stringRawQueryLoop, h]

theorem stringRawQueryLoop_ok (E : Env) (vs : List Value) (frags splits : List String)
    (h : List.Forall₂ (fun v s => queryFragment E v = .ok s) vs frags) :
    stringRawQueryLoop E vs splits = .ok (String.intercalate "&" (splits ++ frags)) := by
  induction h generalizing splits with
  | nil => simp [stringRawQueryLoop]
  | cons hv _ ih =>
    rw [stringRawQueryLoop_step_ok E _ _ _ _ hv, ih]
    simp

theorem stringRawQueryLoop_step_error (E : Env) (v : Value) (e : GoError) (rest : List Value)
    (splits : List String) (h : queryFragment E v = .error e) :
    stringRawQueryLoop E (v :: rest) splits = .error e := by
  cases v with
  | str t => simp [queryFragment] at h
  | bytes b => simp only [queryFragment] at h; simp [stringRawQueryLoop, h]
  | int n => simp only [queryFragment] at h; simp [stringRawQueryLoop, h]
  | strMap m => simp only [queryFragment] at h; simp [stringRawQueryLoop, h]
  | chan => simp only [queryFragment] at h; simp [stringRawQueryLoop, h]

theorem queryFragment_error_iff (E : Env) (v : Value) (e : GoError) :
    queryFragment E v = .error e ↔ (∀ s : String, v ≠ .str s) ∧ E.toRawQuery v = .error e := by
  cases v <;> simp [queryFragment]

theorem stringRawQueryLoop_append (E : Env) (pre rest : List Value) (frags splits : List String)
    (h : List.Forall₂ (fun v s => queryFragment E v = .ok s) pre frags) :
    stringRawQueryLoop E (pre ++ rest) splits = stringRawQueryLoop E rest (splits ++ frags) := by
  induction h generalizing splits with
  | nil => simp
  | cons hv _ ih =>
    rw [List.cons_append, stringRawQueryLoop_step_ok E _ _ _ _ hv, ih]
    simp

theorem stringRawQueryLoop_error_iff (E : Env) (vs : List Value) (splits : List String) :
    (∃ e : GoError, stringRawQueryLoop E vs splits = .error e) ↔
      ∃ v ∈ vs, ∃ e : GoError, queryFragment E v = .error e := by
  induction vs generalizing splits with
  | nil => simp [stringRawQueryLoop]
  | cons v rest ih =>
    cases hv : queryFragment E v with
    | error e =>
      rw [stringRawQueryLoop_step_error E v e rest splits hv]
      exact ⟨fun _ => ⟨v, by simp, e, hv⟩, fun _ => ⟨e, rfl⟩⟩
    | ok s =>
      rw [stringRawQueryLoop_step_ok E v s rest splits hv, ih]
      constructor
      · rintro ⟨w, hw, e, he⟩
        exact ⟨w, by simp [hw], e, he⟩
      · rintro ⟨w, hw, e, he⟩
        rcases List.mem_cons.mp hw with rfl | hw1
        · rw [hv] at he
          cases he
        · exact ⟨w, hw1, e, he⟩

/-- C15: stringRawQuery takes each string verbatim and each other value
through the query encoder; when every value yields a fragment it returns the
fragments joined with "&" in input order; when the encoder fails on a value
that is not a string and every value before it yields a fragment, it returns
the error of that value; it fails exactly when the encoder fails on some value
that is not a string; and on a list of strings it returns their "&"-join. -/
theorem stringRawQuery_spec (E : Env) (vs : List Value) :
    (∀ frags : List String,
      List.Forall₂ (fun v s => queryFragment E v = .ok s) vs frags →
      stringRawQuery E vs = .ok (String.intercalate "&" frags)) ∧
    (∀ (pre post : List Value) (v : Value) (frags : List String) (e : GoError),
      vs = pre ++ v :: post →
      List.Forall₂ (fun w s => queryFragment E w = .ok s) pre frags →
      (∀ s : String, v ≠ .str s) → E.toRawQuery v = .error e →
      stringRawQuery E vs = .error e) ∧
    ((∃ e : GoError, stringRawQuery E vs = .error e) ↔
      ∃ v ∈ vs, (∀ s : String, v ≠ .str s) ∧ ∃ e : GoError, E.toRawQuery v = .error e) ∧
    (∀ ss : List String,
      stringRawQuery E (ss.map Value.str) = .ok (String.intercalate "&" ss)) := by
  refine ⟨?_, ?_, ?_, ?_⟩
  · intro frags h
    simpa [stringRawQuery] using stringRawQueryLoop_ok E vs frags [] h
  · intro pre post v frags e hvs hpre hs he
    subst hvs
    rw [stringRawQuery, stringRawQueryLoop_append E pre (v :: post) frags [] hpre]
    exact stringRawQueryLoop_step_error E v e post _
      ((queryFragment_error_iff E v e).mpr ⟨hs, he⟩)
  · rw [stringRawQuery, stringRawQueryLoop_error_iff]
    constructor
    · rintro ⟨v, hv, e, he⟩
      exact ⟨v, hv, ((queryFragment_error_iff E v e).mp he).1, e,
        ((queryFragment_error_iff E v e).mp he).2⟩
    · rintro ⟨v, hv, hs, e, he⟩
      exact ⟨v, hv, e, (queryFragment_error_iff E v e).mpr ⟨hs, he⟩⟩
  · intro ss
    exact stringRawQuery_strings E ss

/-- C15 at a concrete input: a string, a map and a channel; the encoder
rejects the channel, and without it the two fragments are joined. -/
theorem stringRawQuery_spec_witness :
    stringRawQuery sampleEnv [.str "a=1", .strMap [("b", "2")]] = .ok "a=1&b=2" ∧
    stringRawQuery sampleEnv [.str "a=1", .strMap [("b", "2")], .chan, .int 3]
      = .error ⟨"unsupported type"⟩ :=
  ⟨(stringRawQuery_spec sampleEnv [.str "a=1", .strMap [("b", "2")]]).1 ["a=1", "b=2"]
      (List.Forall₂.cons rfl (List.Forall₂.cons rfl List.Forall₂.nil)),
   (stringRawQuery_spec sampleEnv [.str "a=1", .strMap [("b", "2")], .chan, .int 3]).2.1
      [.str "a=1", .strMap [("b", "2")]] [.int 3] .chan ["a=1", "b=2"] ⟨"unsupported type"⟩
      rfl (List.Forall₂.cons rfl (List.Forall₂.cons rfl List.Forall₂.nil))
      (by intro s h; cases h) rfl⟩

/-! ## Overwriting a form field (C16) -/

theorem mapLookup_mapAssign_ne (m : StrMap) (key k : String) (v : List String)
    (h : k ≠ key) : mapLookup (mapAssign m key v) k = mapLookup m k := by
  induction m with
  | nil => simp [mapAssign, mapLookup, Ne.symm h]
  | cons kv rest ih =>
    obtain ⟨k1, w⟩ := kv
    by_cases hk : k1 = key
    · subst hk
      simp [mapAssign, mapLookup, Ne.symm h]
    · by_cases hk2 : k1 = k
      · subst hk2
        simp [mapAssign, mapLookup, hk]
      · simp [mapAssign, mapLookup, hk, hk2, ih]

theorem mapAssign_idem (m : StrMap) (key : String) (v : List String) :
    mapAssign (mapAssign m key v) key v = mapAssign m key v := by
  induction m with
  | nil => simp [mapAssign]
  | cons kv rest ih =>
    obtain ⟨k1, w⟩ := kv
    by_cases hk : k1 = key
    · simp [mapAssign, hk]
    · simp [mapAssign, hk, ih]

/-- C16: on a Requester with no error whose form-field map is `m`,
SetFormField changes the map only: afterwards the key has exactly the
one-element list of the default textual form of the value, whatever `m` held,
every other key has the value list it had, every other field is unchanged, and
SetFormField applied twice with the same arguments gives the state of applying
it once. -/
theorem SetFormField_spec (E : Env) (r : Requester) (m : StrMap) (key : String) (val : Value)
    (hE : r.Error = none) (hf : r.formFields = some m) :
    ∃ m1 : StrMap, SetFormField E key val r = some { r with formFields := some m1 } ∧
      mapLookup m1 key = some [E.sprint val] ∧
      (∀ k : String, k ≠ key → mapLookup m1 k = mapLookup m k) ∧
      (SetFormField E key val r).bind (SetFormField E key val) = SetFormField E key val r := by
  refine ⟨mapAssign m key [E.sprint val], by simp [SetFormField, hE, hf],
    mapLookup_mapAssign_self _ _ _, fun k hk => mapLookup_mapAssign_ne _ _ _ _ hk, ?_⟩
  simp [SetFormField, hE, hf, mapAssign_idem]

/-- C16 at a concrete input: overwriting the key "a" of a map holding "a" and
"b". -/
theorem SetFormField_spec_witness :
    ∃ m1 : StrMap,
      SetFormField sampleEnv "a" (.str "9")
          { Post sampleEnv "http://x/test" with
            formFields := some [("a", ["1", "2"]), ("b", ["3"])] }
        = some { Post sampleEnv "http://x/test" with formFields := some m1 } ∧
      mapLookup m1 "a" = some ["9"] ∧ mapLookup m1 "b" = some ["3"] :=
  (SetFormField_spec sampleEnv
    { Post sampleEnv "http://x/test" with formFields := some [("a", ["1", "2"]), ("b", ["3"])] }
    [("a", ["1", "2"]), ("b", ["3"])] "a" (.str "9") (by decide) (by decide)).elim
    (fun m1 h => ⟨m1, h.1, h.2.1, (h.2.2.1 "b" (by decide)).trans (by decide)⟩)

/-! ## The two configuration errors (C17) -/

theorem buildRequest_error_origin (E : Env) (r r1 : Requester) (body : Bytes) (e : GoError)
    (hE : r.Error = none) (h : buildRequest E r body = some r1) (he : r1.Error = some e) :
    ∃ url : String, E.newRequestErr r.method url = some e := by
  unfold buildRequest at h
  split at h
  · simp at h
  · rename_i u hu
    split at h
    · rename_i err hn
      simp only [Option.some.injEq] at h
      subst h
      simp only [Option.some.injEq] at he
      subst he
      refine ⟨E.urlString u, ?_⟩
      unfold httpNewRequest at hn
      split at hn
      · rename_i err2 hn2
        simp only [Except.error.injEq] at hn
        subst hn
        exact hn2
      · simp at hn
    · split at h
      · simp only [Option.some.injEq] at h
        subst h
        simp [hE] at he
      · simp only [Option.some.injEq] at h
        subst h
        simp [hE] at he

theorem httpRequest_error_origin (E : Env) (r r1 : Requester) (e : GoError)
    (hE : r.Error = none) (hq : r.request = none)
    (h1 : ¬ (r.method ≠ "POST" ∧
      (r.rawData ≠ [] ∨ lenFields r.formFields ≠ 0 ∨ r.formFiles ≠ [])))
    (h2 : ¬ (r.rawData ≠ [] ∧ (lenFields r.formFields ≠ 0 ∨ r.formFiles ≠ [])))
    (h : httpRequest E r = some r1) (he : r1.Error = some e) :
    E.buildFormData r.formFields r.formFiles = .error e ∨
      ∃ url : String, E.newRequestErr r.method url = some e := by
  have h1b : ¬ (r.method ≠ "POST" ∧
      (r.rawData.length ≠ 0 ∨ lenFields r.formFields ≠ 0 ∨ r.formFiles.length ≠ 0)) := by
    simpa [List.length_eq_zero] using h1
  have h2b : ¬ (r.rawData.length ≠ 0 ∧
      (lenFields r.formFields ≠ 0 ∨ r.formFiles.length ≠ 0)) := by
    simpa [List.length_eq_zero] using h2
  simp only [httpRequest, hE, hq] at h
  rw [if_neg h1b, if_neg h2b] at h
  split at h
  · exact Or.inr (buildRequest_error_origin E r r1 _ e hE h he)
  · split at h
    · rename_i err hb
      simp only [Option.some.injEq] at h
      subst h
      simp only [Option.some.injEq] at he
      subst he
      exact Or.inl hb
    · obtain ⟨url, hurl⟩ := buildRequest_error_origin E _ r1 _ e (by rfl) h he
      exact Or.inr ⟨url, hurl⟩

/-- C17: on a Requester with no error and no built request, whose
collaborators (form encoder, `http.NewRequest`) do not themselves return one
of the two configuration errors, materialization ends with the "use POST"
error exactly when the method is not "POST" and rawData, formFields or
formFiles is not empty; otherwise it ends with the "raw, form only choose
one" error exactly when rawData is not empty and formFields or formFiles is
not empty; the method check comes first when both conditions hold, and in
both cases the Requester is left as it was but for Error, with no request
built. -/
theorem httpRequest_config_errors (E : Env) (r : Requester)
    (hE : r.Error = none) (hq : r.request = none)
    (hB : ∀ e : GoError, E.buildFormData r.formFields r.formFiles = .error e →
      e ≠ errUsePost ∧ e ≠ errRawForm)
    (hN : ∀ (url : String) (e : GoError), E.newRequestErr r.method url = some e →
      e ≠ errUsePost ∧ e ≠ errRawForm) :
    ((httpRequest E r).bind (fun r1 => r1.Error) = some errUsePost ↔
      (r.method ≠ "POST" ∧
        (r.rawData ≠ [] ∨ lenFields r.formFields ≠ 0 ∨ r.formFiles ≠ []))) ∧
    (¬ (r.method ≠ "POST" ∧
        (r.rawData ≠ [] ∨ lenFields r.formFields ≠ 0 ∨ r.formFiles ≠ [])) →
      ((httpRequest E r).bind (fun r1 => r1.Error) = some errRawForm ↔
        (r.rawData ≠ [] ∧ (lenFields r.formFields ≠ 0 ∨ r.formFiles ≠ [])))) ∧
    ((r.method ≠ "POST" ∧
        (r.rawData ≠ [] ∨ lenFields r.formFields ≠ 0 ∨ r.formFiles ≠ [])) →
      httpRequest E r = some { r with Error := some errUsePost }) ∧
    (¬ (r.method ≠ "POST" ∧
        (r.rawData ≠ [] ∨ lenFields r.formFields ≠ 0 ∨ r.formFiles ≠ [])) →
      (r.rawData ≠ [] ∧ (lenFields r.formFields ≠ 0 ∨ r.formFiles ≠ [])) →
      httpRequest E r = some { r with Error := some errRawForm }) := by
  have key : ∀ e0 : GoError, e0 = errUsePost ∨ e0 = errRawForm →
      ¬ (r.method ≠ "POST" ∧
        (r.rawData ≠ [] ∨ lenFields r.formFields ≠ 0 ∨ r.formFiles ≠ [])) →
      ¬ (r.rawData ≠ [] ∧ (lenFields r.formFields ≠ 0 ∨ r.formFiles ≠ [])) →
      (httpRequest E r).bind (fun r1 => r1.Error) ≠ some e0 := by
    intro e0 he0 h1 h2 hc
    cases hr : httpRequest E r with
    | none => simp [hr] at hc
    | some r1 =>
      simp only [hr, Option.some_bind] at hc
      rcases httpRequest_error_origin E r r1 e0 hE hq h1 h2 hr hc with hb | ⟨url, hn⟩
      · rcases he0 with rfl | rfl
        · exact (hB _ hb).1 rfl
        · exact (hB _ hb).2 rfl
      · rcases he0 with rfl | rfl
        · exact (hN url _ hn).1 rfl
        · exact (hN url _ hn).2 rfl
  have hPost : ¬ (r.method ≠ "POST" ∧
        (r.rawData ≠ [] ∨ lenFields r.formFields ≠ 0 ∨ r.formFiles ≠ [])) →
      (r.rawData ≠ [] ∧ (lenFields r.formFields ≠ 0 ∨ r.formFiles ≠ [])) →
      httpRequest E r = some { r with Error := some errRawForm } := by
    intro h1 h2
    have hm : r.method = "POST" := by
      by_contra hm
      exact h1 ⟨hm, Or.inl h2.1⟩
    exact httpRequest_rawForm E r hE hq hm h2.1 h2.2
  have hne : errRawForm ≠ errUsePost := by decide
  refine ⟨?_, ?_, ?_, hPost⟩
  · constructor
    · intro h
      by_contra h1
      by_cases h2 : r.rawData ≠ [] ∧ (lenFields r.formFields ≠ 0 ∨ r.formFiles ≠ [])
      · rw [hPost h1 h2] at h
        simp only [Option.some_bind, Option.some.injEq] at h
        exact hne h
      · exact key errUsePost (Or.inl rfl) h1 h2 h
    · intro h1
      rw [httpRequest_usePost E r hE hq h1.1 h1.2]
      rfl
  · intro h1
    constructor
    · intro h
      by_contra h2
      exact key errRawForm (Or.inr rfl) h1 h2 h
    · intro h2
      rw [hPost h1 h2]
      rfl
  · intro h1
    exact httpRequest_usePost E r hE hq h1.1 h1.2

/-- C17 at a concrete input: a GET Requester holding raw data and a form
field; both conditions hold and the method check wins. -/
theorem httpRequest_config_errors_witness :
    httpRequest sampleEnv
        { New sampleEnv "GET" "http://x/test" with
          rawData := [120], formFields := some [("a", ["1"])] }
      = some { New sampleEnv "GET" "http://x/test" with
          rawData := [120], formFields := some [("a", ["1"])], Error := some errUsePost } :=
  (httpRequest_config_errors sampleEnv
    { New sampleEnv "GET" "http://x/test" with
      rawData := [120], formFields := some [("a", ["1"])] }
    (by decide) (by decide)
    (by intro e h; cases h)
    (by intro url e h; cases h)).2.2.1 (by decide)

/-! ## Encoder failures (C18) -/

/-- C18: on a Requester with no error, when the encoder of AddRawQuery or
SetRawQuery (stringRawQuery), of SetRawData (byteRawData) or of SetFormFields
(the form-value encoder) fails with error `e`, the operation returns the
Requester with Error set to `e` and every other field, the URL and its query
string included, as it was. -/
theorem encoder_failure_atomic (E : Env) (r : Requester) (hE : r.Error = none)
    (vs : List Value) (v fv : Value) (e : GoError) :
    (stringRawQuery E vs = .error e →
      AddRawQuery E vs r = some { r with Error := some e } ∧
      SetRawQuery E vs r = some { r with Error := some e }) ∧
    (byteRawData E v = .error e → SetRawData E v r = some { r with Error := some e }) ∧
    (E.toValues fv = .error e → SetFormFields E fv r = some { r with Error := some e }) := by
  refine ⟨?_, ?_, ?_⟩
  · intro h
    simp [AddRawQuery, SetRawQuery, hE, h]
  · intro h
    simp [SetRawData, hE, h]
  · intro h
    simp [SetFormFields, hE, h]

/-- C18 at a concrete input: a channel, which no encoder of the concrete
environment takes, given to AddRawQuery on a fresh POST Requester. -/
theorem encoder_failure_atomic_witness :
    AddRawQuery sampleEnv [.str "a=1", .chan] (Post sampleEnv "http://x/test?b=2")
      = some { Post sampleEnv "http://x/test?b=2" with Error := some ⟨"unsupported type"⟩ } ∧
    SetRawData sampleEnv .chan (Post sampleEnv "http://x/test?b=2")
      = some { Post sampleEnv "http://x/test?b=2" with
          Error := some ⟨"json: unsupported type: chan int"⟩ } :=
  ⟨((encoder_failure_atomic sampleEnv (Post sampleEnv "http://x/test?b=2") (by decide)
      [.str "a=1", .chan] .chan .chan ⟨"unsupported type"⟩).1 (by rfl)).1,
   (encoder_failure_atomic sampleEnv (Post sampleEnv "http://x/test?b=2") (by decide)
      [.str "a=1", .chan] .chan .chan ⟨"json: unsupported type: chan int"⟩).2.1 (by rfl)⟩

/-! ## AddRawQuery without values (C19) -/

/-- C19 at its failing input: the URL "http://x/test?a=1" parses with the query
"a=1", and Get of it with no query values ends with the query "a=1&": the
empty join is appended after a separator. -/
theorem Get_without_values_appends_separator :
    (New sampleEnv "GET" "http://x/test?a=1").url.map URL.RawQuery = some "a=1" ∧
    stringRawQuery sampleEnv [] = .ok "" ∧
    (Get sampleEnv "http://x/test?a=1" []).map (fun r => r.url.map URL.RawQuery)
      = some (some "a=1&") := by
  refine ⟨?_, ?_, ?_⟩
  · decide
  · rfl
  · decide

/-! ## No nil dereference on reachable Requesters (C20) -/

theorem buildRequest_total (E : Env) (r : Requester) (body : Bytes) (u : URL)
    (hu : r.url = some u) :
    ∃ r1 : Requester, buildRequest E r body = some r1 ∧ r1.url = r.url ∧
      r1.formFields = r.formFields ∧ r1.client = r.client := by
  unfold buildRequest
  rw [hu]
  simp only
  split
  · exact ⟨_, rfl, rfl, rfl, rfl⟩
  · split
    · exact ⟨_, rfl, rfl, rfl, rfl⟩
    · exact ⟨_, rfl, rfl, rfl, rfl⟩

theorem httpRequest_total (E : Env) (r : Requester) (hu : r.Error = none → r.url ≠ none) :
    ∃ r1 : Requester, httpRequest E r = some r1 ∧ r1.url = r.url ∧
      r1.formFields = r.formFields ∧ r1.client = r.client := by
  unfold httpRequest
  split
  · exact ⟨r, rfl, rfl, rfl, rfl⟩
  · rename_i hE
    obtain ⟨u, hu1⟩ := Option.ne_none_iff_exists'.mp (hu hE)
    split
    · exact ⟨r, rfl, rfl, rfl, rfl⟩
    · split
      · exact ⟨_, rfl, rfl, rfl, rfl⟩
      · split
        · exact ⟨_, rfl, rfl, rfl, rfl⟩
        · split
          · exact buildRequest_total E r _ u hu1
          · split
            · exact ⟨_, rfl, rfl, rfl, rfl⟩
            · exact buildRequest_total E _ _ u hu1

theorem SetHeader_total (E : Env) (key val : String) (r : Requester)
    (hu : r.Error = none → r.url ≠ none) :
    ∃ r2 : Requester, SetHeader E key val r = some r2 ∧ r2.url = r.url ∧
      r2.formFields = r.formFields ∧ r2.client = r.client := by
  obtain ⟨r1, h1, hu1, hf1, hc1⟩ := httpRequest_total E r hu
  cases hE : r1.Error with
  | some e => exact ⟨r1, by simp [SetHeader, h1, hE], hu1, hf1, hc1⟩
  | none =>
    obtain ⟨q, hq⟩ := httpRequest_built E r r1 h1 hE
    exact ⟨{ r1 with request := some { q with Header := headerSet E q.Header key val } },
      by simp [SetHeader, h1, hE, hq], hu1, hf1, hc1⟩

theorem AddHeader_total (E : Env) (key val : String) (r : Requester)
    (hu : r.Error = none → r.url ≠ none) :
    ∃ r2 : Requester, AddHeader E key val r = some r2 ∧ r2.url = r.url ∧
      r2.formFields = r.formFields ∧ r2.client = r.client := by
  obtain ⟨r1, h1, hu1, hf1, hc1⟩ := httpRequest_total E r hu
  cases hE : r1.Error with
  | some e => exact ⟨r1, by simp [AddHeader, h1, hE], hu1, hf1, hc1⟩
  | none =>
    obtain ⟨q, hq⟩ := httpRequest_built E r r1 h1 hE
    exact ⟨{ r1 with request := some { q with Header := headerAdd E q.Header key val } },
      by simp [AddHeader, h1, hE, hq], hu1, hf1, hc1⟩

theorem applyOp_total (E : Env) (op : ConfigOp) (r : Requester)
    (h : r.Error = none → r.url ≠ none ∧ r.formFields ≠ none) :
    ∃ r1 : Requester, applyOp E op r = some r1 ∧
      (r1.Error = none → r1.url ≠ none ∧ r1.formFields ≠ none) ∧ r1.client = r.client := by
  cases hE : r.Error with
  | some e =>
    exact ⟨r, applyOp_of_error E op r e hE, fun h0 => by simp [hE] at h0, rfl⟩
  | none =>
    obtain ⟨hu, hf⟩ := h hE
    cases hop : op.isHeader with
    | false =>
      obtain ⟨r1, h1, hu1, hf1⟩ := applyOp_field_total E op r hop hu hf
      exact ⟨r1, h1, fun _ => ⟨hu1, hf1⟩, (applyOp_field_frozen E op r r1 hop h1).2⟩
    | true =>
      cases op with
      | setHeader key val =>
        obtain ⟨r2, h2, hu2, hf2, hc2⟩ := SetHeader_total E key val r (fun _ => hu)
        exact ⟨r2, h2, fun _ => ⟨by rw [hu2]; exact hu, by rw [hf2]; exact hf⟩, hc2⟩
      | addHeader key val =>
        obtain ⟨r2, h2, hu2, hf2, hc2⟩ := AddHeader_total E key val r (fun _ => hu)
        exact ⟨r2, h2, fun _ => ⟨by rw [hu2]; exact hu, by rw [hf2]; exact hf⟩, hc2⟩
      | _ => simp [ConfigOp.isHeader] at hop

theorem applyOps_total (E : Env) (ops : List ConfigOp) (r : Requester)
    (h : r.Error = none → r.url ≠ none ∧ r.formFields ≠ none) :
    ∃ r1 : Requester, applyOps E ops r = some r1 ∧
      (r1.Error = none → r1.url ≠ none ∧ r1.formFields ≠ none) ∧ r1.client = r.client := by
  induction ops generalizing r with
  | nil => exact ⟨r, rfl, h, rfl⟩
  | cons op rest ih =>
    obtain ⟨r2, h2, hi2, hc2⟩ := applyOp_total E op r h
    obtain ⟨r3, h3, hi3, hc3⟩ := ih r2 hi2
    exact ⟨r3, by simp [applyOps, h2, h3], hi3, hc3.trans hc2⟩

theorem New_ready (E : Env) (method toURL : String) (client : Option Client) :
    ((New E method toURL).Error = none →
      (New E method toURL).url ≠ none ∧ (New E method toURL).formFields ≠ none) ∧
    ((NewWithClient E method toURL client).Error = none →
      (NewWithClient E method toURL client).url ≠ none ∧
      (NewWithClient E method toURL client).formFields ≠ none) := by
  cases hp : E.parse toURL <;> simp [New, NewWithClient, hp, errRequester]

theorem New_client (E : Env) (method toURL : String) :
    (New E method toURL).Error = none → (New E method toURL).client = some defaultClient := by
  cases hp : E.parse toURL <;> simp [New, hp, errRequester]

/-- C20: on a Requester `r0` made by New or NewWithClient, every chain of
configuration calls runs to its end without a panic and keeps the client, and
on the Requester `r` it returns: httpRequest returns, with Error set or the
request built; SetHeader and AddHeader return; whenever Do returns, every
transport invocation it has made is on a request that is not nil; Do returns
when Error is set after materialization or the client is not nil, always so
when `r0` comes from New, and its only panic is the call on a nil client
handed to NewWithClient, made with the request built.  When the URL does not
parse, `r0` has a nil url and a nil form-field map, and the chain returns it
as it was. -/
theorem reachable_never_nil (E : Env) (method toURL : String) (client : Option Client)
    (ops : List ConfigOp) (key val : String) (r0 : Requester)
    (h0 : r0 = New E method toURL ∨ r0 = NewWithClient E method toURL client) :
    (∃ r r1 : Requester, applyOps E ops r0 = some r ∧ r.client = r0.client ∧
      httpRequest E r = some r1 ∧
      ((∃ e : GoError, r1.Error = some e) ∨ ∃ q : Request, r1.request = some q) ∧
      (∃ r2 : Requester, SetHeader E key val r = some r2) ∧
      (∃ r3 : Requester, AddHeader E key val r = some r3) ∧
      (∀ o : Outcome (Option Response), Do E r = some o →
        ∀ x ∈ o.calls, ∃ q : Request, x.2 = some q) ∧
      (((∃ e : GoError, r1.Error = some e) ∨ ∃ c : Client, r0.client = some c) →
        ∃ o : Outcome (Option Response), Do E r = some o) ∧
      (r0 = New E method toURL → ∃ o : Outcome (Option Response), Do E r = some o) ∧
      (Do E r = none →
        r0.client = none ∧ r1.Error = none ∧ ∃ q : Request, r1.request = some q)) ∧
    (∀ e : GoError, E.parse toURL = .error e →
      r0 = errRequester e ∧ r0.url = none ∧ r0.formFields = none ∧
      applyOps E ops r0 = some r0) := by
  have hready : r0.Error = none → r0.url ≠ none ∧ r0.formFields ≠ none := by
    rcases h0 with rfl | rfl
    · exact (New_ready E method toURL client).1
    · exact (New_ready E method toURL client).2
  constructor
  · obtain ⟨r, hr, hi, hcl⟩ := applyOps_total E ops r0 hready
    have hu : r.Error = none → r.url ≠ none := fun h => (hi h).1
    obtain ⟨r1, h1, _, _, hc1⟩ := httpRequest_total E r hu
    obtain ⟨r2, h2, _, _, _⟩ := SetHeader_total E key val r hu
    obtain ⟨r3, h3, _, _, _⟩ := AddHeader_total E key val r hu
    have hc0 : r1.client = r0.client := hc1.trans hcl
    have hbuilt : (∃ e : GoError, r1.Error = some e) ∨ ∃ q : Request, r1.request = some q := by
      cases hE : r1.Error with
      | some e => exact Or.inl ⟨e, rfl⟩
      | none => exact Or.inr (httpRequest_built E r r1 h1 hE)
    have hret : ((∃ e : GoError, r1.Error = some e) ∨ ∃ c : Client, r0.client = some c) →
        ∃ o : Outcome (Option Response), Do E r = some o := by
      intro hcase
      cases hE : r1.Error with
      | some e => exact ⟨_, Do_of_httpRequest_error E r r1 e h1 hE⟩
      | none =>
        rcases hcase with ⟨e, he⟩ | ⟨c, hc⟩
        · simp [hE] at he
        · exact ⟨_, Do_of_transport E r r1 c h1 hE (hc0.trans hc)⟩
    refine ⟨r, r1, hr, hcl, h1, hbuilt, ⟨r2, h2⟩, ⟨r3, h3⟩, ?_, hret, ?_, ?_⟩
    · intro o ho x hx
      cases hE : r1.Error with
      | some e =>
        rw [Do_of_httpRequest_error E r r1 e h1 hE, Option.some.injEq] at ho
        subst ho
        simp at hx
      | none =>
        obtain ⟨q, hq⟩ := httpRequest_built E r r1 h1 hE
        cases hc : r1.client with
        | none =>
          rw [Do_of_nil_client E r r1 h1 hE hc] at ho
          simp at ho
        | some c =>
          rw [Do_of_transport E r r1 c h1 hE hc, Option.some.injEq] at ho
          subst ho
          simp only [List.mem_singleton] at hx
          subst hx
          exact ⟨q, hq⟩
    · intro hnew
      cases hE : r1.Error with
      | some e => exact hret (Or.inl ⟨e, hE⟩)
      | none =>
        cases hE0 : r0.Error with
        | some e0 =>
          have hr' : r = r0 := by
            have := applyOps_of_error E ops r0 e0 hE0
            rw [hr] at this
            exact Option.some.inj this
          subst hr'
          have h1' : r1 = r := by
            have := httpRequest_of_error E r e0 hE0
            rw [h1] at this
            exact Option.some.inj this
          subst h1'
          simp [hE0] at hE
        | none =>
          have hc : r0.client = some defaultClient := by
            subst hnew
            exact New_client E method toURL hE0
          exact hret (Or.inr ⟨defaultClient, hc⟩)
    · intro hnone
      cases hE : r1.Error with
      | some e =>
        rw [Do_of_httpRequest_error E r r1 e h1 hE] at hnone
        simp at hnone
      | none =>
        cases hc : r1.client with
        | none => exact ⟨hc0.symm.trans hc, rfl, httpRequest_built E r r1 h1 hE⟩
        | some c =>
          rw [Do_of_transport E r r1 c h1 hE hc] at hnone
          simp at hnone
  · intro e hp
    have hr0 : r0 = errRequester e := by
      rcases h0 with rfl | rfl
      · simp [New, hp]
      · simp [NewWithClient, hp]
    subst hr0
    exact ⟨rfl, rfl, rfl, applyOps_of_error E ops _ e rfl⟩

/-- C20 at a concrete input: a chain with a query, a form field and a header
on a fresh POST Requester, followed by Do. -/
theorem reachable_never_nil_witness :
    ∃ r : Requester,
      applyOps sampleEnv [.addRawQuery [.str "a=1"], .setFormField "k" (.str "v"),
          .setHeader "X-A" "1"] (New sampleEnv "POST" "http://x/test") = some r ∧
      ∃ o : Outcome (Option Response), Do sampleEnv r = some o ∧
        ∀ x ∈ o.calls, ∃ q : Request, x.2 = some q :=
  (reachable_never_nil sampleEnv "POST" "http://x/test" none
    [.addRawQuery [.str "a=1"], .setFormField "k" (.str "v"), .setHeader "X-A" "1"]
    "X-B" "2" (New sampleEnv "POST" "http://x/test") (Or.inl rfl)).1.elim
    (fun r h => h.elim (fun _ h1 =>
      (h1.2.2.2.2.2.2.2.2.1 rfl).elim (fun o ho =>
        ⟨r, h1.1, o, ho, h1.2.2.2.2.2.2.1 o ho⟩)))

end Gorequester
